import Mathlib

/-!
Verification development for the sociograph call-graph analyzer.

The JavaScript sources are shallowly embedded:
* JS `Map` objects become association lists with `Map.prototype.set` /
  `Map.prototype.get` semantics (`mapSet` / `mapGet`): first-insertion
  position is kept, the stored value is the last one written.
* JS `Set` objects become duplicate-free lists in insertion order
  (`setAdd`).
* JS numbers are modelled as exact rationals; the index arithmetic
  `Math.floor(p * (n - 1))` is modelled with the exact rational floor.
* Fallible dynamic-field accesses (a method looked up on an object that
  may not carry it) are modelled with `Option` fields and `Except`.
-/

namespace Sociograph

/-- JS `Map.prototype.set`: update the value in place if the key exists
(keeping its position), otherwise append a fresh entry. -/
def mapSet {α : Type} (m : List (String × α)) (k : String) (v : α) :
    List (String × α) :=
  if m.any (fun p => p.1 = k) then
    m.map (fun p => if p.1 = k then (k, v) else p)
  else
    m ++ [(k, v)]

/-- JS `Map.prototype.get`: the value of the entry with the key, if any. -/
def mapGet {α : Type} (m : List (String × α)) (k : String) : Option α :=
  (m.find? (fun p => p.1 = k)).map (fun p => p.2)

/-- JS `Map.prototype.has`. -/
def mapHas {α : Type} (m : List (String × α)) (k : String) : Bool :=
  m.any (fun p => p.1 = k)

/-- JS `Set.prototype.add` on an insertion-ordered duplicate-free list. -/
def setAdd (s : List String) (x : String) : List String :=
  if x ∈ s then s else s ++ [x]

/-- Stable insertion into a sorted list: `x` goes before the first element
it compares less-or-equal to. -/
def insertSorted {α : Type} (le : α → α → Bool) (x : α) : List α → List α
  | [] => [x]
  | y :: t => if le x y then x :: y :: t else y :: insertSorted le x t

/-- Stable sort, modelling `Array.prototype.sort` with a consistent
comparator (V8 sort is stable). -/
def jsSortBy {α : Type} (le : α → α → Bool) (l : List α) : List α :=
  l.foldr (insertSorted le) []

/-- FunctionNode — `call-graph.js`.  Fields that no analysed claim reads
(`file`, `kind`, `className`) are carried as plain data. -/
structure FunctionNode where
  id : String
  name : String
  file : String
  relPath : String
  module : String
  line : Nat
  endLine : Nat
  params : Nat
  complexity : Nat
  linesOfCode : Nat
  kind : String
deriving Repr, DecidableEq, Inhabited

/-- CallEdge — `call-graph.js`.  `toId` is `none` for an unresolved edge
(JS `to: null`). -/
structure CallEdge where
  fromId : String
  toId : Option String
  calleeName : String
  resolved : Bool
  crossModule : Bool
  file : String
  line : Nat
deriving Repr, DecidableEq, Inhabited

/-- CallGraph — `call-graph.js`.  `nodes` is the JS `Map` keyed by node id,
`edges` the push-ordered edge array.  The lazily cached caller/callee
indices of the source are pure functions of `edges`, so they are modelled
by direct filtering (the rebuild is total, never partial). -/
structure CallGraph where
  nodes : List (String × FunctionNode)
  edges : List CallEdge
deriving Repr, DecidableEq, Inhabited

def CallGraph.empty : CallGraph := { nodes := [], edges := [] }

/-- Source `CallGraph.addFunction`: `this.nodes.set(node.id, node)`. -/
def CallGraph.addFunction (g : CallGraph) (n : FunctionNode) : CallGraph :=
  { g with nodes := mapSet g.nodes n.id n }

/-- Source `CallGraph.addEdge`: `this.edges.push(edge)`. -/
def CallGraph.addEdge (g : CallGraph) (e : CallEdge) : CallGraph :=
  { g with edges := g.edges ++ [e] }

/-- Source `CallGraph.getNode`. -/
def CallGraph.getNode (g : CallGraph) (id : String) : Option FunctionNode :=
  mapGet g.nodes id

/-- Source `CallGraph.getAllNodes`: `[...this.nodes.values()]`. -/
def CallGraph.getAllNodes (g : CallGraph) : List FunctionNode :=
  g.nodes.map (fun p => p.2)

/-- Source `CallGraph.callers` — edges keyed under `edge.to` in the caller index. -/
def CallGraph.callers (g : CallGraph) (nodeId : String) : List CallEdge :=
  g.edges.filter (fun e => e.toId = some nodeId)

/-- Source `CallGraph.callees` — edges keyed under `edge.from` in the callee index. -/
def CallGraph.callees (g : CallGraph) (nodeId : String) : List CallEdge :=
  g.edges.filter (fun e => e.fromId = nodeId)

def CallGraph.fanIn (g : CallGraph) (nodeId : String) : Nat :=
  (g.callers nodeId).length

def CallGraph.fanOut (g : CallGraph) (nodeId : String) : Nat :=
  (g.callees nodeId).length

/-- Source `CallGraph.crossModuleFanOut`: callees whose resolved target exists and
lives in a different module. -/
def CallGraph.crossModuleFanOut (g : CallGraph) (nodeId : String) : Nat :=
  match mapGet g.nodes nodeId with
  | none => 0
  | some node =>
      ((g.callees nodeId).filter (fun e =>
        match e.toId.bind (fun t => mapGet g.nodes t) with
        | some target => target.module ≠ node.module
        | none => false)).length

/-- ImportBinding — `import-resolver.js` / `graph-builder.js`.
`resolvedFile` is the absolute path of the import target. -/
structure ImportEntry where
  resolvedFile : String
  exportedName : String
  isNamespace : Bool
deriving Repr, DecidableEq, Inhabited

/-- RawCall — `ast-walker.js`. -/
structure RawCall where
  fromId : String
  calleeName : String
  calleeObject : Option String
  file : String
  line : Nat
deriving Repr, DecidableEq, Inhabited

/-- NATIVE_METHOD_NAMES — `graph-builder.js`.  The JS `Set` literal,
kept in source order (duplicates are harmless for membership). -/
def NATIVE_METHOD_NAMES : List String :=
  [ "map", "filter", "reduce", "reduceRight", "forEach", "find", "findIndex",
    "findLast", "findLastIndex", "some", "every", "flat", "flatMap",
    "push", "pop", "shift", "unshift", "splice", "slice", "concat",
    "join", "reverse", "sort", "fill", "copyWithin", "includes", "indexOf",
    "lastIndexOf", "entries", "keys", "values", "at",
    "assign", "keys", "values", "entries", "create", "freeze", "seal",
    "fromEntries", "getOwnPropertyNames", "defineProperty", "hasOwn",
    "split", "match", "matchAll", "replace", "replaceAll", "search",
    "trim", "trimStart", "trimEnd", "padStart", "padEnd",
    "startsWith", "endsWith", "includes", "indexOf", "lastIndexOf",
    "slice", "substring", "charAt", "charCodeAt", "toLowerCase", "toUpperCase",
    "repeat", "normalize",
    "then", "catch", "finally", "resolve", "reject", "all", "allSettled",
    "race", "any",
    "round", "floor", "ceil", "abs", "min", "max", "pow", "sqrt", "random",
    "sign", "trunc", "log", "log2", "log10",
    "parse", "stringify", "toString", "valueOf", "toJSON", "toISOString",
    "toLocaleDateString", "toLocaleString", "getTime", "getDate", "getDay",
    "getMonth", "getFullYear", "getHours", "getMinutes", "getSeconds",
    "setDate", "setMonth", "setFullYear",
    "emit", "on", "off", "once", "removeListener", "removeAllListeners",
    "addListener", "prependListener",
    "get", "set", "has", "add", "delete", "clear", "size",
    "call", "apply", "bind",
    "error", "warn", "info", "debug", "log",
    "send", "write", "read", "end", "close", "open", "destroy",
    "next", "done", "return", "throw",
    "test", "exec", "compile" ]

/-- Source `makeEdge` — `graph-builder.js`. -/
def makeEdge (fromId : String) (toId : Option String) (calleeName : String)
    (resolved : Bool) (crossModule : Bool) (file : String) (line : Nat) :
    CallEdge :=
  { fromId := fromId, toId := toId, calleeName := calleeName,
    resolved := resolved, crossModule := crossModule, file := file,
    line := line }

/-- The export-index key `relative(rootDir, file) + "::" + name`;
`rel` stands for the partially applied `relative(rootDir, ·)`. -/
def exportKey (relFile : String) (name : String) : String :=
  relFile ++ "::" ++ name

/-- Strategy 4 of `resolveCall`: unique project-wide name match, suppressed
for names in the native-method deny-list. -/
def strategy4 (c : RawCall) (nameIndex : List (String × List String))
    (graph : CallGraph) : CallEdge :=
  let callerModule := (graph.getNode c.fromId).map (fun n => n.module)
  match (mapGet nameIndex c.calleeName).getD [] with
  | [t] =>
      if NATIVE_METHOD_NAMES.contains c.calleeName then
        makeEdge c.fromId none c.calleeName false false c.file c.line
      else
        let targetNode := graph.getNode t
        makeEdge c.fromId (some t) c.calleeName true
          (decide (callerModule ≠ targetNode.map (fun n => n.module)))
          c.file c.line
  | _ => makeEdge c.fromId none c.calleeName false false c.file c.line

/-- Strategy 3 of `resolveCall`: unique name match within the caller file,
falling through to strategy 4. -/
def strategy3 (c : RawCall) (nameIndex : List (String × List String))
    (graph : CallGraph) : CallEdge :=
  let callerFile := (graph.getNode c.fromId).map (fun n => n.relPath)
  let sameFileCandidates :=
    ((mapGet nameIndex c.calleeName).getD []).filter (fun id =>
      (graph.getNode id).map (fun n => n.relPath) = callerFile)
  match sameFileCandidates with
  | [t] => makeEdge c.fromId (some t) c.calleeName true false c.file c.line
  | _ => strategy4 c nameIndex graph

/-- Strategy 2 of `resolveCall`: `obj.method()` where `obj` is bound to a
namespace import, falling through to strategy 3.  The JS guard
`if (targetId)` treats the empty string as a failed lookup. -/
def strategy2 (c : RawCall) (importMap : List (String × ImportEntry))
    (nameIndex : List (String × List String))
    (exportIndex : List (String × String)) (graph : CallGraph)
    (rel : String → String) : CallEdge :=
  let callerModule := (graph.getNode c.fromId).map (fun n => n.module)
  match c.calleeObject with
  | some obj =>
      match mapGet importMap obj with
      | some nsEntry =>
          if nsEntry.isNamespace then
            match mapGet exportIndex
                (exportKey (rel nsEntry.resolvedFile) c.calleeName) with
            | some targetId =>
                if targetId ≠ "" then
                  makeEdge c.fromId (some targetId) c.calleeName true
                    (decide (callerModule ≠
                      (graph.getNode targetId).map (fun n => n.module)))
                    c.file c.line
                else strategy3 c nameIndex graph
            | none => strategy3 c nameIndex graph
          else strategy3 c nameIndex graph
      | none => strategy3 c nameIndex graph
  | none => strategy3 c nameIndex graph

/-- Source `resolveCall` — `graph-builder.js`.  Four ordered strategies, first
match wins; strategy 1 (local non-namespace import binding) is inlined
here, the rest fall through.  `rel` stands for `relative(rootDir, ·)`. -/
def resolveCall (c : RawCall) (importMap : List (String × ImportEntry))
    (nameIndex : List (String × List String))
    (exportIndex : List (String × String)) (graph : CallGraph)
    (rel : String → String) : CallEdge :=
  let callerModule := (graph.getNode c.fromId).map (fun n => n.module)
  match mapGet importMap c.calleeName with
  | some importEntry =>
      if importEntry.isNamespace then
        strategy2 c importMap nameIndex exportIndex graph rel
      else
        match mapGet exportIndex
            (exportKey (rel importEntry.resolvedFile)
              importEntry.exportedName) with
        | some targetId =>
            if targetId ≠ "" then
              makeEdge c.fromId (some targetId) c.calleeName true
                (decide (callerModule ≠
                  (graph.getNode targetId).map (fun n => n.module)))
                c.file c.line
            else strategy2 c importMap nameIndex exportIndex graph rel
        | none => strategy2 c importMap nameIndex exportIndex graph rel
  | none => strategy2 c importMap nameIndex exportIndex graph rel

/-- Source `buildNameIndex` — `graph-builder.js`: name → list of node ids, in
`getAllNodes` order. -/
def buildNameIndex (graph : CallGraph) : List (String × List String) :=
  graph.getAllNodes.foldl (fun index node =>
    mapSet index node.name (((mapGet index node.name).getD []) ++ [node.id]))
    []

/-- Source `buildExportIndex` — `graph-builder.js`: every node is indexed under
`relPath::name` and under the default-export heuristic `relPath::default`. -/
def buildExportIndex (graph : CallGraph) : List (String × String) :=
  graph.getAllNodes.foldl (fun index node =>
    mapSet (mapSet index (exportKey node.relPath node.name) node.id)
      (exportKey node.relPath "default") node.id)
    []

/-- One parsed file as the graph builder consumes it:
the `{ functions, calls, importMap }` triple of `walkFile`. -/
structure FileParse where
  functions : List FunctionNode
  calls : List RawCall
  importMap : List (String × ImportEntry)
deriving Repr, Inhabited

/-- Phase 2 of `buildGraph`: insert every function of every file into a
fresh graph, in file order. -/
def insertFunctions (files : List FileParse) : CallGraph :=
  files.foldl (fun g f => f.functions.foldl CallGraph.addFunction g)
    CallGraph.empty

/-- Phases 3 and 4 of `buildGraph`: build both indices strictly after all
insertions, then resolve every raw call of every file in order. -/
def buildGraphEdges (files : List FileParse) (rel : String → String) :
    List CallEdge :=
  let graph := insertFunctions files
  let nameIndex := buildNameIndex graph
  let exportIndex := buildExportIndex graph
  files.flatMap (fun f =>
    f.calls.map (fun c =>
      resolveCall c f.importMap nameIndex exportIndex graph rel))

/-- StatSummary — the exact shape of the object literal returned by
`summarize` in `stats.js`: six numeric properties.  The `p85` and `rank`
fields model dynamic property reads performed by `archetypes.js` on this
object: `summarize` never writes them, so they are `none` (JS
`undefined`). -/
structure StatSummary where
  p50 : ℚ
  p75 : ℚ
  p90 : ℚ
  p95 : ℚ
  max : ℚ
  mean : ℚ
  p85 : Option ℚ
  rank : Option (ℚ → ℚ)
deriving Inhabited

/-- Source `percentile` — `stats.js`: nearest-rank value at index
`Math.floor(p * (n - 1))` of the ascending-sorted sample. -/
def percentile (sorted : List ℚ) (p : ℚ) : ℚ :=
  if sorted.length = 0 then 0
  else sorted.getD (⌊p * ((sorted.length : ℚ) - 1)⌋).toNat 0

/-- Source `summarize` — `stats.js`.  The returned object literal has no
`p85` property and no `rank` method. -/
def summarize (values : List ℚ) : StatSummary :=
  let sorted := jsSortBy (fun a b => decide (a ≤ b)) values
  { p50 := percentile sorted (1/2)
    p75 := percentile sorted (3/4)
    p90 := percentile sorted (9/10)
    p95 := percentile sorted (19/20)
    max := sorted.getD (sorted.length - 1) 0
    mean := values.sum / (values.length : ℚ)
    p85 := none
    rank := none }

/-- The seven per-metric summaries produced by `computeStats`. -/
structure Stats where
  fanIn : StatSummary
  fanOut : StatSummary
  complexity : StatSummary
  linesOfCode : StatSummary
  params : StatSummary
  crossModuleFanOut : StatSummary
  crossModuleRatio : StatSummary
deriving Inhabited

/-- Monotone percentile chain of one metric summary, as the spec states
it. -/
def percentileChain (t : StatSummary) : Prop :=
  t.p50 ≤ t.p75 ∧ t.p75 ≤ t.p90 ∧ t.p90 ≤ t.p95 ∧ t.p95 ≤ t.max

/-- Source `computeStats` — `stats.js`.  Returns `none` for the empty
graph (the JS code returns the empty object `{}`, which the classifier
only ever uses when the node loop is empty). -/
def computeStats (g : CallGraph) : Option Stats :=
  let nodes := g.getAllNodes
  if nodes.length = 0 then none
  else some
    { fanIn := summarize (nodes.map (fun n => (g.fanIn n.id : ℚ)))
      fanOut := summarize (nodes.map (fun n => (g.fanOut n.id : ℚ)))
      complexity := summarize (nodes.map (fun n => (n.complexity : ℚ)))
      linesOfCode := summarize (nodes.map (fun n => (n.linesOfCode : ℚ)))
      params := summarize (nodes.map (fun n => (n.params : ℚ)))
      crossModuleFanOut :=
        summarize (nodes.map (fun n => (g.crossModuleFanOut n.id : ℚ)))
      crossModuleRatio :=
        summarize (nodes.map (fun n =>
          let fo := g.fanOut n.id
          if fo = 0 then 0 else (g.crossModuleFanOut n.id : ℚ) / (fo : ℚ))) }

/-- JS runtime errors the archetype detectors can raise. -/
inductive JsError where
  | typeError
deriving Repr, DecidableEq

/-- GitMetrics — `git-analyzer.js`. -/
structure GitMetrics where
  commits : Nat
  fixCommits : Nat
  authors : List String
  firstSeen : Option Nat
  lastSeen : Option Nat
  coCommits : List (String × Nat)
deriving Repr, DecidableEq, Inhabited

/-- Result of `strongestPartner` — `git-analyzer.js`. -/
structure Partner where
  partnerId : String
  correlation : ℚ
  coCount : Nat
deriving Repr, DecidableEq, Inhabited

/-- Source `coCommitCorrelation` — `git-analyzer.js`. -/
def coCommitCorrelation (metricsA : GitMetrics) (metricsB : GitMetrics)
    (idB : String) : ℚ :=
  let coCount := (mapGet metricsA.coCommits idB).getD 0
  let minCommits := min metricsA.commits metricsB.commits
  if minCommits = 0 then 0 else (coCount : ℚ) / (minCommits : ℚ)

/-- Source `strongestPartner` — `git-analyzer.js` (the default
`minCoCount = 3` is passed explicitly by its caller here). -/
def strongestPartner (nodeId : String) (metrics : List (String × GitMetrics))
    (minCoCount : Nat) : Option Partner :=
  match mapGet metrics nodeId with
  | none => none
  | some m =>
      if m.coCommits.length = 0 then none
      else
        (m.coCommits.foldl (fun (acc : Option Partner × ℚ) entry =>
          if entry.2 < minCoCount then acc
          else
            match mapGet metrics entry.1 with
            | none => acc
            | some otherMetrics =>
                let corr := coCommitCorrelation m otherMetrics entry.1
                if acc.2 < corr then
                  (some { partnerId := entry.1, correlation := corr,
                          coCount := entry.2 }, corr)
                else acc)
          (none, 0)).1

/-- Detector result: the `{ confidence, reasons }` object (plus the
`partnerNode` stash of the Codependent detector).  `confidence = none`
models a JS `NaN` confidence. -/
structure DetectResult where
  confidence : Option ℚ
  reasons : List String
  partnerNode : Option FunctionNode
deriving Repr, DecidableEq, Inhabited

/-- Source `clamp` — `archetypes.js`. -/
def clamp (v : ℚ) : ℚ := min 1 (max 0 v)

/-- Source `normalize` — `archetypes.js` (all-numeric case). -/
def normalize (value minV maxV : ℚ) : ℚ :=
  if maxV = minV then 0 else clamp ((value - minV) / (maxV - minV))

/-- Normalize against a possibly-missing lower bound: with `min` equal to
JS `undefined` the subtraction and division produce `NaN` (`none`);
`clamp` keeps `NaN` as `NaN`. -/
def normalizeU (value : ℚ) (minV : Option ℚ) (maxV : ℚ) : Option ℚ :=
  match minV with
  | some m => some (normalize value m maxV)
  | none => none

/-- NaN-propagating multiplication by a literal weight. -/
def nanMul (a : ℚ) (b : Option ℚ) : Option ℚ := b.map (fun x => a * x)

/-- NaN-propagating addition. -/
def nanAdd : Option ℚ → Option ℚ → Option ℚ
  | some a, some b => some (a + b)
  | _, _ => none

/-- NaN-propagating clamp: `Math.min(1, Math.max(0, NaN))` is `NaN`. -/
def clampN (v : Option ℚ) : Option ℚ := v.map clamp

/-- JS greater-or-equal against a possibly-missing threshold:
`x >= undefined` is `false` (NaN comparison). -/
def jsGe (x : ℚ) (t : Option ℚ) : Bool :=
  match t with
  | some v => decide (v ≤ x)
  | none => false

/-- Source `topPct` — `archetypes.js`:
`Math.max(1, 100 - stat.rank(value))`.  The stats objects built by
`computeStats` carry no `rank` method, so the call throws. -/
def topPct (value : ℚ) (stat : StatSummary) : Except JsError ℚ :=
  match stat.rank with
  | some rankFn => .ok (max 1 (100 - rankFn value))
  | none => .error .typeError

/-- Source `Math.round` (ties round up). -/
def jsRound (x : ℚ) : ℤ := ⌊x + 1/2⌋

/-- Context handed to detectors by the classifier. -/
structure DetectContext where
  gitMetrics : Option (List (String × GitMetrics))
  bridgeScores : List (String × (ℚ × Nat))

/-- An archetype: label plus detector. -/
structure Archetype where
  label : String
  emoji : String
  description : String
  detect : FunctionNode → CallGraph → Stats → DetectContext →
    Except JsError (Option DetectResult)

/-- Source BOSS — `archetypes.js`.  High fan-in above `max(p95, 5)`. -/
def BOSS : Archetype :=
  { label := "The Boss"
    emoji := "👔"
    description := "Everything depends on this. High fan-in, single point of failure."
    detect := fun node graph stats _ =>
      let fi : ℚ := (graph.fanIn node.id : ℚ)
      let fo : ℚ := (graph.fanOut node.id : ℚ)
      let threshold := max stats.fanIn.p95 5
      if fi < threshold then .ok none
      else
        let dominance := if fo = 0 then 1 else fi / (fi + fo)
        let confidence := max (2/10) (clamp (normalize fi threshold stats.fanIn.max))
        do
          let pct ← topPct fi stats.fanIn
          let reasons := [toString fi ++ " functions depend on this (top " ++
            toString pct ++ "%)"]
          let reasons := if dominance > 7/10 then
              reasons ++ ["far more callers than callees — high single-point-of-failure risk"]
            else reasons
          .ok (some { confidence := some confidence, reasons := reasons,
                      partnerNode := none }) }

/-- Source WORKHORSE — `archetypes.js`.  The three threshold reads are
`stats.*.p85`, a property `summarize` never produces. -/
def WORKHORSE : Archetype :=
  { label := "The Workhorse"
    emoji := "😰"
    description := "High complexity, does too much, probably modified constantly."
    detect := fun node graph stats _ =>
      let complexity : ℚ := (node.complexity : ℚ)
      let fanOut : ℚ := (graph.fanOut node.id : ℚ)
      let loc : ℚ := (node.linesOfCode : ℚ)
      let complexityHigh := jsGe complexity stats.complexity.p85
      let fanOutHigh := jsGe fanOut stats.fanOut.p85
      let locHigh := jsGe loc stats.linesOfCode.p85
      let score := ([complexityHigh, fanOutHigh, locHigh].filter (fun b => b)).length
      if score < 2 then .ok none
      else
        let confidence := clampN (nanAdd
          (nanAdd (nanMul (4/10) (normalizeU complexity stats.complexity.p85 stats.complexity.max))
            (nanMul (3/10) (normalizeU fanOut stats.fanOut.p85 stats.fanOut.max)))
          (nanMul (3/10) (normalizeU loc stats.linesOfCode.p85 stats.linesOfCode.max)))
        do
          let r1 ← if complexityHigh then do
              let pct ← topPct complexity stats.complexity
              pure ["complexity " ++ toString complexity ++ " (top " ++ toString pct ++ "%)"]
            else pure []
          let r2 ← if fanOutHigh then do
              let pct ← topPct fanOut stats.fanOut
              pure ["calls " ++ toString fanOut ++ " functions (top " ++ toString pct ++ "%)"]
            else pure []
          let r3 ← if locHigh then do
              let pct ← topPct loc stats.linesOfCode
              pure [toString loc ++ " lines (top " ++ toString pct ++ "%)"]
            else pure []
          .ok (some { confidence := confidence, reasons := r1 ++ r2 ++ r3,
                      partnerNode := none }) }

/-- Source GOSSIP — `archetypes.js`. -/
def GOSSIP : Archetype :=
  { label := "The Gossip"
    emoji := "🗣️"
    description := "Calls into many unrelated modules, spreading coupling everywhere."
    detect := fun node graph stats _ =>
      let cmfo : ℚ := (graph.crossModuleFanOut node.id : ℚ)
      let fo : ℚ := (graph.fanOut node.id : ℚ)
      let ratio := if fo = 0 then 0 else cmfo / fo
      let absoluteHigh := cmfo ≥ max stats.crossModuleFanOut.p90 3
      let ratioHigh := ratio ≥ 8/10 ∧ fo ≥ 3
      if ¬absoluteHigh ∧ ¬ratioHigh then .ok none
      else
        let confidence := clamp
          (6/10 * normalize cmfo stats.crossModuleFanOut.p75 stats.crossModuleFanOut.max +
           4/10 * ratio)
        let reasons := ["calls into " ++ toString cmfo ++ " different modules"]
        let reasons := if ratio ≥ 8/10 ∧ fo ≥ 3 then
            reasons ++ [toString (jsRound (ratio * 100)) ++ "% of its calls cross module boundaries"]
          else reasons
        .ok (some { confidence := some confidence, reasons := reasons,
                    partnerNode := none }) }

/-- Source ENTRY_POINT_NAMES — `archetypes.js`. -/
def ENTRY_POINT_NAMES : List String :=
  [ "main", "index", "start", "init", "setup", "bootstrap",
    "default", "app", "server", "listen",
    "get", "post", "put", "patch", "delete" ]

/-- Source HERMIT — `archetypes.js`. -/
def HERMIT : Archetype :=
  { label := "The Hermit"
    emoji := "👻"
    description := "No callers — dead code candidate or forgotten entry point."
    detect := fun node graph stats _ =>
      let fi := graph.fanIn node.id
      if fi > 0 then .ok none
      else
        let likelyEntryPoint :=
          ENTRY_POINT_NAMES.contains node.name.toLower ∨
          node.name.startsWith "handle" ∨
          node.name.startsWith "on" ∨
          node.name.startsWith "route"
        let fo : ℚ := (graph.fanOut node.id : ℚ)
        let confidence := if likelyEntryPoint then (3/10 : ℚ)
          else clamp (1/2 + 1/2 * normalize fo 0 stats.fanOut.max)
        let reasons := ["no callers found in this codebase"]
        let reasons := if likelyEntryPoint then
            reasons ++ ["name suggests entry point — may be called externally"]
          else reasons
        let reasons := if fo = 0 then
            reasons ++ ["also calls nothing — likely truly isolated"]
          else reasons
        .ok (some { confidence := some confidence, reasons := reasons,
                    partnerNode := none }) }

/-- Source STRANGER — `archetypes.js`. -/
def STRANGER : Archetype :=
  { label := "The Stranger"
    emoji := "🚶"
    description := "Lives in the wrong module — most of its relationships are elsewhere."
    detect := fun node graph stats _ =>
      let fo : ℚ := (graph.fanOut node.id : ℚ)
      let cmfo : ℚ := (graph.crossModuleFanOut node.id : ℚ)
      let ratio := if fo = 0 then 0 else cmfo / fo
      if fo < 3 then .ok none
      else if ratio < 3/4 then .ok none
      else
        let confidence := clamp (ratio * normalize cmfo 2 stats.crossModuleFanOut.max)
        let reasons :=
          [ toString (jsRound (ratio * 100)) ++ "% of calls leave its own module",
            "calls " ++ toString cmfo ++ " functions in other modules, " ++
              toString (fo - cmfo) ++ " in its own" ]
        .ok (some { confidence := some confidence, reasons := reasons,
                    partnerNode := none }) }

/-- Source OVERLOADED — `archetypes.js`.  Its first reason string also
calls `topPct`. -/
def OVERLOADED : Archetype :=
  { label := "The Overloaded"
    emoji := "🏋️"
    description := "Too many responsibilities — high params, complexity, and reach."
    detect := fun node graph stats _ =>
      let params : ℚ := (node.params : ℚ)
      let complexity : ℚ := (node.complexity : ℚ)
      let fo : ℚ := (graph.fanOut node.id : ℚ)
      let paramsHigh := params ≥ max stats.params.p90 4
      let complexityHigh := complexity ≥ stats.complexity.p75
      let fanOutHigh := fo ≥ stats.fanOut.p75
      if ¬paramsHigh then .ok none
      else if ¬complexityHigh ∧ ¬fanOutHigh then .ok none
      else
        let confidence := clamp
          (5/10 * normalize params stats.params.p75 stats.params.max +
           3/10 * normalize complexity stats.complexity.p50 stats.complexity.max +
           2/10 * normalize fo stats.fanOut.p50 stats.fanOut.max)
        do
          let pct ← topPct params stats.params
          let reasons := [toString params ++ " parameters (top " ++ toString pct ++ "%)"]
          let reasons := if complexityHigh then
              reasons ++ ["complexity " ++ toString complexity]
            else reasons
          let reasons := if fanOutHigh then
              reasons ++ ["calls " ++ toString fo ++ " other functions"]
            else reasons
          .ok (some { confidence := some confidence, reasons := reasons,
                      partnerNode := none }) }

/-- Source GHOST — `archetypes.js`. -/
def GHOST : Archetype :=
  { label := "The Ghost"
    emoji := "💀"
    description := "Barely called — non-trivial code that has been largely forgotten."
    detect := fun node graph stats _ =>
      let fi := graph.fanIn node.id
      let complexity : ℚ := (node.complexity : ℚ)
      if fi = 0 ∨ fi > 2 then .ok none
      else
        let nonTrivial := complexity ≥ stats.complexity.p50 ∨
          (node.linesOfCode : ℚ) ≥ stats.linesOfCode.p50
        if ¬nonTrivial then .ok none
        else
          let confidence := 4/10 + 3/10 * normalize complexity stats.complexity.p50 stats.complexity.max
          let reasons :=
            [ "only " ++ toString fi ++ (if fi = 1 then " caller" else " callers"),
              "complexity " ++ toString complexity ++ " suggests it is not trivial" ]
          .ok (some { confidence := some confidence, reasons := reasons,
                      partnerNode := none }) }

/-- Source CRISIS_POINT — `archetypes.js`.  Requires git metrics. -/
def CRISIS_POINT : Archetype :=
  { label := "The Crisis Point"
    emoji := "🔥"
    description := "Disproportionate share of bug-fix commits — this is where fires start."
    detect := fun node _ _ context =>
      match context.gitMetrics.bind (fun ms => mapGet ms node.id) with
      | none => .ok none
      | some m =>
          if m.commits < 5 then .ok none
          else
            let fixRatio : ℚ := (m.fixCommits : ℚ) / (m.commits : ℚ)
            if fixRatio < 4/10 then .ok none
            else
              let confidence := max (2/10) (clamp (normalize fixRatio (4/10) 1))
              let reasons := [toString m.fixCommits ++ " of " ++ toString m.commits ++
                " commits were bug fixes (" ++ toString (jsRound (fixRatio * 100)) ++ "%)"]
              let reasons := if m.authors.length > 2 then
                  reasons ++ ["touched by " ++ toString m.authors.length ++
                    " different authors — high turbulence"]
                else reasons
              .ok (some { confidence := some confidence, reasons := reasons,
                          partnerNode := none }) }

/-- Source CODEPENDENT — `archetypes.js`.  Requires git metrics; uses
`strongestPartner` with its default `minCoCount = 3`. -/
def CODEPENDENT : Archetype :=
  { label := "The Codependent"
    emoji := "🔗"
    description := "Always changes with another function — they may need to be merged or co-located."
    detect := fun node graph _ context =>
      match context.gitMetrics with
      | none => .ok none
      | some gm =>
          match strongestPartner node.id gm 3 with
          | none => .ok none
          | some partner =>
              if partner.correlation < 1/2 then .ok none
              else if partner.coCount < 3 then .ok none
              else
                let partnerNode := graph.getNode partner.partnerId
                let confidence := clamp (normalize partner.correlation (1/2) 1)
                let pct := jsRound (partner.correlation * 100)
                let reasons :=
                  [ toString pct ++ "% of changes also touch " ++
                      ((partnerNode.map (fun n => n.name)).getD partner.partnerId),
                    "co-changed " ++ toString partner.coCount ++ " times" ]
                let reasons := match partnerNode with
                  | some pn => if pn.module ≠ node.module then
                      reasons ++ ["partner lives in a different module — consider co-location"]
                    else reasons
                  | none => reasons
                .ok (some { confidence := some confidence, reasons := reasons,
                            partnerNode := partnerNode }) }

/-- Source ALL_ARCHETYPES — `archetypes.js`, in source order. -/
def ALL_ARCHETYPES : List Archetype :=
  [BOSS, WORKHORSE, GOSSIP, HERMIT, STRANGER, OVERLOADED, GHOST,
   CRISIS_POINT, CODEPENDENT]

/-- Classification — `classifier.js`. -/
structure Classification where
  label : String
  emoji : String
  description : String
  confidence : Option ℚ
  reasons : List String
  partnerNode : Option FunctionNode
deriving Repr, DecidableEq, Inhabited

/-- Pass 1 of `computeBridgeScores` — `bridge-detector.js`: per node, the
insertion-ordered sets of distinct external caller modules and callee
modules over resolved edges (the `m && m !== node.module` guard treats an
empty module string as falsy). -/
def nodeModuleSetsOf (g : CallGraph) :
    List (String × (List String × List String)) :=
  g.getAllNodes.foldl (fun acc node =>
    let callerMods := (g.callers node.id).foldl (fun s e =>
      if e.resolved then
        match (g.getNode e.fromId).map (fun n => n.module) with
        | some m => if m ≠ "" ∧ m ≠ node.module then setAdd s m else s
        | none => s
      else s) []
    let calleeMods := (g.callees node.id).foldl (fun s e =>
      if e.resolved then
        match (e.toId.bind g.getNode).map (fun n => n.module) with
        | some m => if m ≠ "" ∧ m ≠ node.module then setAdd s m else s
        | none => s
      else s) []
    mapSet acc node.id (callerMods, calleeMods)) []

/-- One pass-2 update of `computeBridgeScores`: add `nodeId` to the
bridgers set of the ordered pair `(a, b)` unless `a = b`. -/
def bridgersAdd (acc : List (String × List String)) (nodeId a b : String) :
    List (String × List String) :=
  if a = b then acc
  else mapSet acc (a ++ "::" ++ b)
    (setAdd ((mapGet acc (a ++ "::" ++ b)).getD []) nodeId)

/-- Pass 2 of `computeBridgeScores`: the `bridgers` map,
`"A::B" -> Set of node ids` with at least one A-caller and one B-callee. -/
def bridgersOf (nms : List (String × (List String × List String))) :
    List (String × List String) :=
  nms.foldl (fun acc entry =>
    entry.2.1.foldl (fun acc a =>
      entry.2.2.foldl (fun acc b => bridgersAdd acc entry.1 a b) acc) acc)
    []

/-- One surfaced bridge pair (`from`, `to`, `exclusivity`, `total`). -/
structure BridgePair where
  fromMod : String
  toMod : String
  exclusivity : ℚ
  total : Nat
deriving Repr, DecidableEq, Inhabited

/-- BridgeInfo — `bridge-detector.js`. -/
structure BridgeInfo where
  score : ℚ
  pairs : List BridgePair
deriving Repr, DecidableEq, Inhabited

/-- The `total` of pass 3 for an ordered module pair:
`bridgers.get(key)?.size ?? 1`. -/
def bridgeTotal (bridgers : List (String × List String)) (a b : String) :
    Nat :=
  ((mapGet bridgers (a ++ "::" ++ b)).map (fun s => s.length)).getD 1

/-- The `exclusivity` of pass 3: `1 / total`. -/
def exclusivityOf (bridgers : List (String × List String)) (a b : String) :
    ℚ :=
  (1 : ℚ) / (bridgeTotal bridgers a b : ℚ)

/-- One pass-3 update of `computeBridgeScores`: fold a single ordered
module pair into the running maximum and the surfaced-pair list. -/
def bridgeStep (bridgers : List (String × List String)) (a b : String)
    (acc : ℚ × List BridgePair) : ℚ × List BridgePair :=
  if a = b then acc
  else
    let total : Nat := bridgeTotal bridgers a b
    let exclusivity := exclusivityOf bridgers a b
    let maxScore := if acc.1 < exclusivity then exclusivity else acc.1
    let pairs := if exclusivity ≥ 1/2 then
        acc.2 ++ [{ fromMod := a, toMod := b, exclusivity := exclusivity,
                    total := total }]
      else acc.2
    (maxScore, pairs)

/-- Pass 3 inner loop of `computeBridgeScores`: running maximum score and
surfaced pairs for one node. -/
def bridgePass3 (bridgers : List (String × List String)) (_nodeId : String)
    (callerMods calleeMods : List String) : ℚ × List BridgePair :=
  callerMods.foldl (fun acc a =>
    calleeMods.foldl (fun acc b => bridgeStep bridgers a b acc) acc)
    ((0 : ℚ), ([] : List BridgePair))

/-- The BridgeInfo stored for a surviving node: its max score and its
surfaced pairs sorted by descending exclusivity. -/
def bridgeResultOf (bridgers : List (String × List String))
    (nodeId : String) (cm km : List String) : BridgeInfo :=
  { score := (bridgePass3 bridgers nodeId cm km).1,
    pairs := jsSortBy (fun a b => decide (b.exclusivity ≤ a.exclusivity))
      (bridgePass3 bridgers nodeId cm km).2 }

/-- Source `computeBridgeScores` — `bridge-detector.js`. -/
def computeBridgeScores (g : CallGraph) : List (String × BridgeInfo) :=
  let nms := nodeModuleSetsOf g
  let bridgers := bridgersOf nms
  nms.foldl (fun results entry =>
    if entry.2.1.length = 0 ∨ entry.2.2.length = 0 then results
    else
      let step := bridgePass3 bridgers entry.1 entry.2.1 entry.2.2
      if step.1 ≥ 1/2 then
        mapSet results entry.1
          (bridgeResultOf bridgers entry.1 entry.2.1 entry.2.2)
      else results) []

/-- Source `classify` — `classifier.js` (the context-aware version): run
all nine detectors on every node, sort matches by descending confidence
(a `NaN` confidence is ordered as 0), return the per-node map. -/
def classify (graph : CallGraph)
    (context : Option (List (String × GitMetrics))) :
    Except JsError (List (String × List Classification)) :=
  match computeStats graph with
  | none => .ok []
  | some stats =>
      let bridgeScores := (computeBridgeScores graph).map
        (fun p => (p.1, (p.2.score, p.2.pairs.length)))
      let ctx : DetectContext :=
        { gitMetrics := context, bridgeScores := bridgeScores }
      graph.getAllNodes.foldlM (fun results node => do
        let matchList ← ALL_ARCHETYPES.foldlM
          (fun (acc : List Classification) arch => do
            match ← arch.detect node graph stats ctx with
            | some r =>
                let c : Classification :=
                  { label := arch.label, emoji := arch.emoji,
                    description := arch.description,
                    confidence := r.confidence, reasons := r.reasons,
                    partnerNode := r.partnerNode }
                pure (acc ++ [c])
            | none => pure acc) []
        let sorted := jsSortBy
          (fun a b => decide ((b.confidence.getD 0) ≤ (a.confidence.getD 0)))
          matchList
        pure (mapSet results node.id sorted)) []

namespace Diff

/-- NodeSnapshot — `snapshot.js::toSnapshot`. -/
structure NodeSnapshot where
  id : String
  name : String
  relPath : String
  line : Nat
  module : String
  complexity : Int
  linesOfCode : Int
  params : Int
  fanIn : Int
  fanOut : Int
  crossModuleFanOut : Int
  archetypes : List String
deriving Repr, DecidableEq, Inhabited

/-- MetricDelta — `diff-classifier.js`. -/
structure MetricDelta where
  complexity : Int
  fanIn : Int
  fanOut : Int
  crossModuleFanOut : Int
  linesOfCode : Int
deriving Repr, DecidableEq, Inhabited

/-- FunctionDiff — `diff-classifier.js`. -/
structure FunctionDiff where
  kind : String
  stableKey : String
  name : String
  relPath : String
  module : String
  delta : MetricDelta
  before : Option NodeSnapshot
  after : Option NodeSnapshot
  archetypesBefore : List String
  archetypesAfter : List String
  archetypesGained : List String
  archetypesLost : List String
  verdict : String
  signals : List String
deriving Repr, DecidableEq, Inhabited

/-- Summary counters of a DiffResult. -/
structure DiffSummary where
  added : Nat
  removed : Nat
  stressed : Nat
  improved : Nat
  unchanged : Nat
deriving Repr, DecidableEq, Inhabited

/-- DiffResult — `diff-classifier.js`. -/
structure DiffResult where
  beforeRef : String
  afterRef : String
  diffs : List FunctionDiff
  summary : DiffSummary
deriving Repr, DecidableEq, Inhabited

/-- Source `zeroDelta`. -/
def zeroDelta : MetricDelta :=
  { complexity := 0, fanIn := 0, fanOut := 0, crossModuleFanOut := 0,
    linesOfCode := 0 }

/-- Source THRESHOLDS.stress, as the JS property lookup
`THRESHOLDS.stress[key]` (`none` models `undefined`). -/
def stressThreshold (key : String) : Option Int :=
  if key = "complexity" then some 3
  else if key = "fanOut" then some 2
  else if key = "fanIn" then some 5
  else if key = "crossModuleFanOut" then some 2
  else none

/-- Source THRESHOLDS.improve, as the JS property lookup. -/
def improveThreshold (key : String) : Option Int :=
  if key = "complexity" then some (-3)
  else if key = "fanOut" then some (-2)
  else if key = "fanIn" then some (-5)
  else if key = "crossModuleFanOut" then some (-2)
  else none

/-- Source CONCERNING — `diff-classifier.js`. -/
def CONCERNING : List String :=
  [ "The Boss", "The Workhorse", "The Gossip", "The Overloaded",
    "The Crisis Point", "The Codependent", "The Stranger" ]

/-- Source `computeDelta`. -/
def computeDelta (before after : NodeSnapshot) : MetricDelta :=
  { complexity := after.complexity - before.complexity
    fanIn := after.fanIn - before.fanIn
    fanOut := after.fanOut - before.fanOut
    crossModuleFanOut := after.crossModuleFanOut - before.crossModuleFanOut
    linesOfCode := after.linesOfCode - before.linesOfCode }

/-- The `checks` table inside `classify` — `(label, key, value)`. -/
def checksOf (delta : MetricDelta) : List (String × String × Int) :=
  [ ("complexity", "complexity", delta.complexity),
    ("fan-out", "fanOut", delta.fanOut),
    ("cross-module calls", "crossModuleFanOut", delta.crossModuleFanOut),
    ("fan-in", "fanIn", delta.fanIn),
    ("lines", "linesOfCode", delta.linesOfCode) ]

/-- Source `classify` — `diff-classifier.js`: verdict and signals for a
changed function. -/
def classify (delta : MetricDelta) (_before _after : NodeSnapshot)
    (archetypesGained archetypesLost : List String) :
    String × List String :=
  let afterChecks := (checksOf delta).foldl
    (fun (acc : Bool × Bool × List String) check =>
      let label := check.1
      let key := check.2.1
      let value := check.2.2
      if value = 0 then acc
      else
        let sign := if value > 0 then "+" else ""
        let sig := label ++ " " ++ sign ++ toString value
        let stressHit : Bool := match stressThreshold key with
          | some st => decide (value ≥ st)
          | none => false
        let improveHit : Bool := match improveThreshold key with
          | some it => decide (value ≤ it)
          | none => false
        if stressHit then (true, acc.2.1, acc.2.2 ++ [sig])
        else if improveHit then (acc.1, true, acc.2.2 ++ [sig])
        else if 1 ≤ |value| ∧ key = "linesOfCode" then
          (if 20 ≤ |value| then
            (acc.1, acc.2.1, acc.2.2 ++ ["lines " ++ sign ++ toString value])
          else acc)
        else acc)
    (false, false, [])
  let afterGained := archetypesGained.foldl
    (fun (acc : Bool × Bool × List String) a =>
      if CONCERNING.contains a then (true, acc.2.1, acc.2.2 ++ ["gained: " ++ a])
      else (acc.1, acc.2.1, acc.2.2 ++ ["gained: " ++ a]))
    afterChecks
  let afterLost := archetypesLost.foldl
    (fun (acc : Bool × Bool × List String) a =>
      if CONCERNING.contains a then (acc.1, true, acc.2.2 ++ ["lost: " ++ a])
      else (acc.1, acc.2.1, acc.2.2 ++ ["lost: " ++ a]))
    afterGained
  let verdict := if afterLost.1 then "stressed"
    else if afterLost.2.1 then "improved" else "neutral"
  (verdict, afterLost.2.2)

/-- Source `makeAdded`. -/
def makeAdded (key : String) (after : NodeSnapshot) : FunctionDiff :=
  { kind := "added", stableKey := key, name := after.name,
    relPath := after.relPath, module := after.module, delta := zeroDelta,
    before := none, after := some after, archetypesBefore := [],
    archetypesAfter := after.archetypes, archetypesGained := after.archetypes,
    archetypesLost := [], verdict := "new",
    signals := if after.archetypes.length > 0 then after.archetypes else [] }

/-- Source `makeRemoved`. -/
def makeRemoved (key : String) (before : NodeSnapshot) : FunctionDiff :=
  { kind := "removed", stableKey := key, name := before.name,
    relPath := before.relPath, module := before.module, delta := zeroDelta,
    before := some before, after := none,
    archetypesBefore := before.archetypes, archetypesAfter := [],
    archetypesGained := [], archetypesLost := before.archetypes,
    verdict := "gone",
    signals := if before.archetypes.length > 0 then
        ["was: " ++ String.intercalate ", " before.archetypes]
      else [] }

/-- Source `makeChanged`. -/
def makeChanged (key : String) (before after : NodeSnapshot) : FunctionDiff :=
  let delta := computeDelta before after
  let archetypesGained := after.archetypes.filter
    (fun a => !(before.archetypes.contains a))
  let archetypesLost := before.archetypes.filter
    (fun a => !(after.archetypes.contains a))
  let vs := classify delta before after archetypesGained archetypesLost
  { kind := "changed", stableKey := key, name := after.name,
    relPath := after.relPath, module := after.module, delta := delta,
    before := some before, after := some after,
    archetypesBefore := before.archetypes,
    archetypesAfter := after.archetypes,
    archetypesGained := archetypesGained, archetypesLost := archetypesLost,
    verdict := vs.1, signals := vs.2 }

/-- Source `severityScore`. -/
def severityScore (d : FunctionDiff) : ℚ :=
  (d.delta.complexity.natAbs : ℚ) * 2 + (d.delta.fanOut.natAbs : ℚ) +
    (d.delta.crossModuleFanOut.natAbs : ℚ) +
    (d.delta.fanIn.natAbs : ℚ) * (1/2)

/-- The `order` table inside `sortDiffs` (`?? 5`). -/
def verdictOrder (v : String) : Nat :=
  if v = "stressed" then 0
  else if v = "new" then 1
  else if v = "improved" then 2
  else if v = "gone" then 3
  else if v = "neutral" then 4
  else 5

/-- Source `sortDiffs` comparator value. -/
def sortDiffsCmp (a b : FunctionDiff) : ℚ :=
  let ao := verdictOrder a.verdict
  let bo := verdictOrder b.verdict
  if ao ≠ bo then (ao : ℚ) - (bo : ℚ)
  else if a.verdict = "stressed" then severityScore b - severityScore a
  else if a.verdict = "new" then
    ((b.archetypesGained.filter (fun x => CONCERNING.contains x)).length : ℚ) -
      ((a.archetypesGained.filter (fun x => CONCERNING.contains x)).length : ℚ)
  else 0

/-- A changed entry with neutral verdict and no archetype change is folded
into the `unchanged` count. -/
def neutralUnchanged (d : FunctionDiff) : Bool :=
  d.verdict = "neutral" ∧ d.archetypesGained = [] ∧ d.archetypesLost = []

/-- Source `computeDiff` — `diff-classifier.js`.  The three loops push
added, removed and kept-changed diffs in that order; the final array is
sorted with the stable `sortDiffs` comparator. -/
def computeDiff (beforeMap afterMap : List (String × NodeSnapshot))
    (beforeRef afterRef : String) : DiffResult :=
  let added := afterMap.filterMap (fun p =>
    if mapHas beforeMap p.1 then none else some (makeAdded p.1 p.2))
  let removed := beforeMap.filterMap (fun p =>
    if mapHas afterMap p.1 then none else some (makeRemoved p.1 p.2))
  let changedAll := beforeMap.filterMap (fun p =>
    (mapGet afterMap p.1).map (fun a => makeChanged p.1 p.2 a))
  let unchanged := changedAll.countP neutralUnchanged
  let diffs := added ++ removed ++
    changedAll.filter (fun d => !(neutralUnchanged d))
  let sorted := jsSortBy (fun a b => decide (sortDiffsCmp a b ≤ 0)) diffs
  { beforeRef := beforeRef, afterRef := afterRef, diffs := sorted,
    summary :=
      { added := (sorted.filter (fun d => d.kind = "added")).length
        removed := (sorted.filter (fun d => d.kind = "removed")).length
        stressed := (sorted.filter (fun d => d.verdict = "stressed")).length
        improved := (sorted.filter (fun d => d.verdict = "improved")).length
        unchanged := unchanged } }

end Diff

/-- A mutation of the CallGraph store, for the C10 operation-sequence
model. -/
inductive GraphOp where
  | addFn (n : FunctionNode)
  | addEdge (e : CallEdge)
deriving Repr

/-- Apply one mutation. -/
def applyOp (g : CallGraph) (op : GraphOp) : CallGraph :=
  match op with
  | .addFn n => g.addFunction n
  | .addEdge e => g.addEdge e

/-- Run a sequence of mutations against a fresh CallGraph. -/
def runOps (ops : List GraphOp) : CallGraph :=
  ops.foldl applyOp CallGraph.empty

/-- The most recently added function with the given id, if any. -/
def lastAddedNode (ops : List GraphOp) (id : String) : Option FunctionNode :=
  (ops.filterMap (fun op => match op with
    | .addFn n => if n.id = id then some n else none
    | .addEdge _ => none)).getLast?

/-- Helper to build concrete FunctionNodes for the example inputs. -/
def mkNode (id name relPath moduleName : String)
    (params complexity loc : Nat) : FunctionNode :=
  { id := id, name := name, file := "/proj/" ++ relPath, relPath := relPath,
    module := moduleName, line := 1, endLine := loc, params := params,
    complexity := complexity, linesOfCode := loc, kind := "function" }

/-- Concrete stand-in for `relative(rootDir, ·)` with root `/proj`. -/
def relProj : String → String := fun s => s.drop 6

def c1Entry : ImportEntry :=
  { resolvedFile := "/proj/b.js", exportedName := "default",
    isNamespace := false }

def c1ImportMap : List (String × ImportEntry) := [("foo", c1Entry)]

/-- Example for C1: `a.js` default-imports `foo` from `b.js` (which only
defines `bar`), while `c.js` defines the only project function named
`foo`. -/
def c1Files : List FileParse :=
  [ { functions := [mkNode "a.js::caller" "caller" "a.js" "a.js" 0 1 5],
      calls := [{ fromId := "a.js::caller", calleeName := "foo",
                  calleeObject := none, file := "/proj/a.js", line := 3 }],
      importMap := c1ImportMap },
    { functions := [mkNode "b.js::bar" "bar" "b.js" "b.js" 0 1 5],
      calls := [], importMap := [] },
    { functions := [mkNode "c.js::foo" "foo" "c.js" "c.js" 0 1 5],
      calls := [], importMap := [] } ]

def c1Graph : CallGraph := insertFunctions c1Files

def c1Call : RawCall :=
  { fromId := "a.js::caller", calleeName := "foo", calleeObject := none,
    file := "/proj/a.js", line := 3 }

/-- Example for the C5 counterexample: caller and a function named `map`
in the same file, no imports. -/
def c5Files : List FileParse :=
  [ { functions := [mkNode "a.js::caller" "caller" "a.js" "a.js" 0 1 5,
                    mkNode "a.js::map" "map" "a.js" "a.js" 1 1 3],
      calls := [{ fromId := "a.js::caller", calleeName := "map",
                  calleeObject := some "obj", file := "/proj/a.js",
                  line := 2 }],
      importMap := [] } ]

def c5Graph : CallGraph := insertFunctions c5Files

def c5Call : RawCall :=
  { fromId := "a.js::caller", calleeName := "map",
    calleeObject := some "obj", file := "/proj/a.js", line := 2 }

/-- Example for the amended C5 witness: the unique `transformUser` lives in
another file than the caller; no imports. -/
def c5bFiles : List FileParse :=
  [ { functions := [mkNode "a.js::caller" "caller" "a.js" "a.js" 0 1 5],
      calls := [{ fromId := "a.js::caller", calleeName := "transformUser",
                  calleeObject := some "svc", file := "/proj/a.js",
                  line := 4 }],
      importMap := [] },
    { functions := [mkNode "b.js::transformUser" "transformUser" "b.js"
        "b.js" 1 2 6],
      calls := [], importMap := [] } ]

def c5bGraph : CallGraph := insertFunctions c5bFiles

def c5bCall : RawCall :=
  { fromId := "a.js::caller", calleeName := "transformUser",
    calleeObject := some "svc", file := "/proj/a.js", line := 4 }

/-- Example for C3: a single function whose complexity and LOC sit at the
(spec-side) 85th percentile of a one-element sample. -/
def c3Node : FunctionNode := mkNode "a.js::big" "big" "a.js" "a.js" 0 10 10

def c3Graph : CallGraph := CallGraph.empty.addFunction c3Node

/-- Example for C4 and C9: one function with five resolved self-call
edges, so its fan-in 5 meets the Boss threshold `max(p95, 5)`. -/
def c4Node : FunctionNode := mkNode "a.js::hub" "hub" "a.js" "a.js" 0 1 3

def c4Edge : CallEdge :=
  makeEdge "a.js::hub" (some "a.js::hub") "hub" true false "/proj/a.js" 2

def c4Graph : CallGraph :=
  (((((CallGraph.empty.addFunction c4Node).addEdge c4Edge).addEdge
    c4Edge).addEdge c4Edge).addEdge c4Edge).addEdge c4Edge

/-- Empty detector context (no git metrics, no bridge scores). -/
def noGitCtx : DetectContext := { gitMetrics := none, bridgeScores := [] }

/-- The node map produced by inserting a stream of functions into a fresh
JS `Map`, as `addFunction` does. -/
def jsMapOfNodes (ns : List FunctionNode) : List (String × FunctionNode) :=
  ns.foldl (fun m n => mapSet m n.id n) []

/-- The function ids contributed by one parsed file. -/
def fnIds (f : FileParse) : List String :=
  f.functions.map (fun n => n.id)

/-- The export-index keys written for one node (its named key and the
default-export key). -/
def exportKeysOfNode (n : FunctionNode) : List String :=
  [exportKey n.relPath n.name, exportKey n.relPath "default"]

/-- The export-index keys contributed by one parsed file. -/
def exportKeysOf (f : FileParse) : List String :=
  f.functions.flatMap exportKeysOfNode

/-- Whether a node writes the given export-index key. -/
def writesKey (key : String) (n : FunctionNode) : Bool :=
  decide (exportKey n.relPath n.name = key) ||
    decide (exportKey n.relPath "default" = key)

/-- Example input for the C2 witness: two files in both orders. -/
def c2FileA : FileParse :=
  { functions := [mkNode "a.js::caller" "caller" "a.js" "a.js" 0 1 5],
    calls := [{ fromId := "a.js::caller", calleeName := "helper",
                calleeObject := none, file := "/proj/a.js", line := 2 }],
    importMap := [] }

def c2FileB : FileParse :=
  { functions := [mkNode "b.js::helper" "helper" "b.js" "b.js" 0 1 4],
    calls := [], importMap := [] }

def c2Call : RawCall :=
  { fromId := "a.js::caller", calleeName := "helper", calleeObject := none,
    file := "/proj/a.js", line := 2 }

/-- Example graph for the C6 witness: three functions across two modules
with three resolved calls. -/
def c6Graph : CallGraph :=
  { nodes :=
      [ ("api/a.js::f", mkNode "api/a.js::f" "f" "api/a.js" "api" 1 3 10),
        ("api/b.js::g", mkNode "api/b.js::g" "g" "api/b.js" "api" 2 5 20),
        ("db/c.js::h", mkNode "db/c.js::h" "h" "db/c.js" "db" 0 1 4) ],
    edges :=
      [ makeEdge "api/a.js::f" (some "api/b.js::g") "g" true false
          "/proj/api/a.js" 2,
        makeEdge "api/b.js::g" (some "db/c.js::h") "h" true true
          "/proj/api/b.js" 3,
        makeEdge "api/a.js::f" (some "db/c.js::h") "h" true true
          "/proj/api/a.js" 4 ] }

/-- The stats `computeStats` produces on `c6Graph`. -/
def c6Stats : Stats := (computeStats c6Graph).getD default

/-- Example graph for the C7 witness: `core/x.js::x` is the sole bridge
from module `api` to module `db`. -/
def c7Graph : CallGraph :=
  { nodes :=
      [ ("api/a.js::a", mkNode "api/a.js::a" "a" "api/a.js" "api" 0 1 3),
        ("core/x.js::x", mkNode "core/x.js::x" "x" "core/x.js" "core" 0 1 3),
        ("db/b.js::b", mkNode "db/b.js::b" "b" "db/b.js" "db" 0 1 3) ],
    edges :=
      [ makeEdge "api/a.js::a" (some "core/x.js::x") "x" true true
          "/proj/api/a.js" 2,
        makeEdge "core/x.js::x" (some "db/b.js::b") "b" true true
          "/proj/core/x.js" 2 ] }

/-- The BridgeInfo `computeBridgeScores` reports for the C7 witness
node. -/
def c7Info : BridgeInfo :=
  { score := 1,
    pairs := [{ fromMod := "api", toMod := "db", exclusivity := 1,
                total := 1 }] }

/-- Example snapshot for the C8 witness. -/
def c8Snap : Diff.NodeSnapshot :=
  { id := "api/a.js::f", name := "f", relPath := "api/a.js", line := 1,
    module := "api", complexity := 4, linesOfCode := 12, params := 2,
    fanIn := 3, fanOut := 1, crossModuleFanOut := 1,
    archetypes := ["The Boss"] }

/-- Example one-entry snapshot map for the C8 witness. -/
def c8Map : List (String × Diff.NodeSnapshot) := [("api/a.js::f", c8Snap)]

end Sociograph

namespace Sociograph

/-- C1: a raw call whose name has a non-namespace import binding whose
export-index lookup succeeds resolves to that binding target, whatever the
name index says — strategy 1 beats strategies 2, 3 and 4. -/
theorem strategy1_beats_global_fallback
    (c : RawCall) (importMap : List (String × ImportEntry))
    (nameIndex : List (String × List String))
    (exportIndex : List (String × String)) (graph : CallGraph)
    (rel : String → String) (entry : ImportEntry) (targetId : String)
    (himp : mapGet importMap c.calleeName = some entry)
    (hns : entry.isNamespace = false)
    (hexp : mapGet exportIndex
      (exportKey (rel entry.resolvedFile) entry.exportedName) = some targetId)
    (hne : targetId ≠ "") :
    resolveCall c importMap nameIndex exportIndex graph rel =
      makeEdge c.fromId (some targetId) c.calleeName true
        (decide ((graph.getNode c.fromId).map (fun n => n.module) ≠
          (graph.getNode targetId).map (fun n => n.module)))
        c.file c.line := by
  unfold resolveCall
  rw [himp]
  simp [hns, hexp, hne]

/-- C1 witness: in the three-file example, `foo` has exactly one
project-wide match (in `c.js`) yet the call resolves to the import-binding
target `b.js::bar`. -/
theorem strategy1_beats_global_fallback_witness :
    mapGet (buildNameIndex c1Graph) "foo" = some ["c.js::foo"] ∧
    resolveCall c1Call c1ImportMap (buildNameIndex c1Graph)
        (buildExportIndex c1Graph) c1Graph relProj =
      makeEdge "a.js::caller" (some "b.js::bar") "foo" true true
        "/proj/a.js" 3 := by
  constructor
  · decide
  · rw [strategy1_beats_global_fallback c1Call c1ImportMap
      (buildNameIndex c1Graph) (buildExportIndex c1Graph) c1Graph relProj
      c1Entry "b.js::bar" (by decide) (by decide) (by decide) (by decide)]
    decide

theorem some_or_eq {α : Type} (a : α) (o : Option α) :
    (some a).or o = some a := rfl

theorem getLast?_cons_or {α : Type} (a : α) (l : List α) :
    (a :: l).getLast? = l.getLast?.or (some a) := by
  rw [List.getLast?_cons]
  cases l.getLast? <;> rfl

theorem find?_map_keep {α : Type} (k : String) (v : α)
    (pk : (String × α) → Bool) (hpk : ∀ p, pk p = decide (p.1 = k)) :
    ∀ m : List (String × α), m.any pk = true →
      (m.map (fun p => if p.1 = k then (k, v) else p)).find? pk =
        some (k, v) := by
  intro m
  induction m with
  | nil => intro h; simp at h
  | cons q t ih =>
      intro h
      by_cases hq : q.1 = k
      · have hv : pk (k, v) = true := by rw [hpk]; simp
        simp only [List.map_cons, if_pos hq]
        rw [List.find?_cons_of_pos _ hv]
      · have hpq : pk q = false := by rw [hpk]; simp [hq]
        have ht : t.any pk = true := by
          rcases List.any_eq_true.mp h with ⟨x, hx, hxp⟩
          rcases List.mem_cons.mp hx with hxq | hxt
          · subst hxq; rw [hpq] at hxp; exact absurd hxp (by simp)
          · exact List.any_eq_true.mpr ⟨x, hxt, hxp⟩
        simp only [List.map_cons, if_neg hq]
        rw [List.find?_cons_of_neg _ (by simp [hpq])]
        exact ih ht

theorem find?_map_skip {α : Type} (k k' : String) (v : α) (hk : k' ≠ k)
    (pk : (String × α) → Bool) (hpk : ∀ p, pk p = decide (p.1 = k')) :
    ∀ m : List (String × α),
      (m.map (fun p => if p.1 = k then (k, v) else p)).find? pk =
        m.find? pk := by
  intro m
  induction m with
  | nil => simp
  | cons q t ih =>
      by_cases hq : q.1 = k
      · have h1 : ¬(pk (k, v)) = true := by
          rw [hpk]
          simp only [decide_eq_true_eq]
          exact fun hkk => hk hkk.symm
        have h2 : ¬(pk q) = true := by
          rw [hpk]
          simp only [decide_eq_true_eq, hq]
          exact fun hkk => hk hkk.symm
        simp only [List.map_cons, if_pos hq]
        rw [List.find?_cons_of_neg _ h1, List.find?_cons_of_neg _ h2]
        exact ih
      · simp only [List.map_cons, if_neg hq]
        by_cases hq' : pk q = true
        · rw [List.find?_cons_of_pos _ hq', List.find?_cons_of_pos _ hq']
        · rw [List.find?_cons_of_neg _ hq', List.find?_cons_of_neg _ hq']
          exact ih

theorem mapGet_mapSet_self {α : Type} (m : List (String × α)) (k : String)
    (v : α) : mapGet (mapSet m k v) k = some v := by
  unfold mapSet mapGet
  cases hA : m.any (fun p => decide (p.1 = k)) with
  | true =>
      simp only [hA, if_true]
      rw [find?_map_keep k v _ (fun p => rfl) m hA]
      rfl
  | false =>
      simp only [hA, Bool.false_eq_true, if_false]
      rw [List.find?_append]
      have h1 : m.find? (fun p => decide (p.1 = k)) = none := by
        rw [List.find?_eq_none]
        intro x hx
        have := List.any_eq_false.mp (by exact hA) x hx
        simpa using this
      rw [h1]
      simp

theorem mapGet_mapSet_ne {α : Type} (m : List (String × α)) (k k' : String)
    (v : α) (h : k' ≠ k) : mapGet (mapSet m k v) k' = mapGet m k' := by
  unfold mapSet mapGet
  cases hA : m.any (fun p => decide (p.1 = k)) with
  | true =>
      simp only [hA, if_true]
      rw [find?_map_skip k k' v h _ (fun p => rfl) m]
  | false =>
      simp only [hA, Bool.false_eq_true, if_false]
      rw [List.find?_append]
      have h2 : List.find? (fun p => decide (p.1 = k')) [(k, v)] = none := by
        simp; exact fun hkk => h hkk.symm
      rw [h2, Option.or_none]

theorem keys_mapSet_of_any {α : Type} (m : List (String × α)) (k : String)
    (v : α) (hA : m.any (fun p => decide (p.1 = k)) = true) :
    (mapSet m k v).map Prod.fst = m.map Prod.fst := by
  unfold mapSet
  simp only [hA, if_true, List.map_map]
  apply List.map_congr_left
  intro p _
  by_cases hp : p.1 = k
  · simp [hp]
  · simp [hp]

theorem nodup_keys_mapSet {α : Type} (m : List (String × α)) (k : String)
    (v : α) (h : (m.map Prod.fst).Nodup) :
    ((mapSet m k v).map Prod.fst).Nodup := by
  cases hA : m.any (fun p => decide (p.1 = k)) with
  | true => rw [keys_mapSet_of_any m k v hA]; exact h
  | false =>
      unfold mapSet
      simp only [hA, Bool.false_eq_true, if_false, List.map_append]
      rw [List.nodup_append]
      refine ⟨h, by simp, ?_⟩
      intro x hx hx1
      simp at hx1
      subst hx1
      rcases List.mem_map.mp hx with ⟨p, hp, hpk⟩
      have := List.any_eq_false.mp (by exact hA) p hp
      simp at this
      exact this hpk

theorem runOps_nodes_nodup_aux :
    ∀ (ops : List GraphOp) (g : CallGraph),
      (g.nodes.map Prod.fst).Nodup →
      (((ops.foldl applyOp g).nodes).map Prod.fst).Nodup := by
  intro ops
  induction ops with
  | nil => intro g h; exact h
  | cons op t ih =>
      intro g h
      cases op with
      | addFn n =>
          exact ih _ (nodup_keys_mapSet g.nodes n.id n h)
      | addEdge e => exact ih _ h

theorem getNode_foldl (ops : List GraphOp) :
    ∀ (g : CallGraph) (id : String),
      ((ops.foldl applyOp g).getNode id) =
        (lastAddedNode ops id).or (g.getNode id) := by
  induction ops with
  | nil => intro g id; simp [lastAddedNode]
  | cons op t ih =>
      intro g id
      cases op with
      | addEdge e =>
          simp only [List.foldl_cons]
          rw [ih]
          rfl
      | addFn n =>
          simp only [List.foldl_cons]
          rw [ih]
          by_cases hn : n.id = id
          · have h1 : (applyOp g (GraphOp.addFn n)).getNode id = some n := by
              show mapGet (mapSet g.nodes n.id n) id = some n
              rw [hn, mapGet_mapSet_self]
            rw [h1]
            have h2 : lastAddedNode (GraphOp.addFn n :: t) id =
                (lastAddedNode t id).or (some n) := by
              unfold lastAddedNode
              rw [List.filterMap_cons]
              simp only [hn, if_true]
              rw [getLast?_cons_or]
            rw [h2, Option.or_assoc, some_or_eq]
          · have h1 : (applyOp g (GraphOp.addFn n)).getNode id =
                g.getNode id := by
              show mapGet (mapSet g.nodes n.id n) id = mapGet g.nodes id
              exact mapGet_mapSet_ne g.nodes n.id id n (fun he => hn he.symm)
            rw [h1]
            have h2 : lastAddedNode (GraphOp.addFn n :: t) id =
                lastAddedNode t id := by
              unfold lastAddedNode
              rw [List.filterMap_cons]
              simp [hn]
            rw [h2]

/-- C10: over any sequence of `addFunction` and `addEdge` operations, the
CallGraph node map holds at most one entry per id, and `getNode` returns
the most recently added function with that id — a second `addFunction`
with an existing id silently replaces the earlier node. -/
theorem addFunction_last_write_wins (ops : List GraphOp) (id : String) :
    (((runOps ops).nodes.map Prod.fst).Nodup) ∧
    (runOps ops).getNode id = lastAddedNode ops id := by
  constructor
  · exact runOps_nodes_nodup_aux ops CallGraph.empty (by
      simp [CallGraph.empty])
  · have h := getNode_foldl ops CallGraph.empty id
    have he : CallGraph.empty.getNode id = none := rfl
    rw [he, Option.or_none] at h
    exact h

/-- C3 (code bug): the Workhorse detector reads `stats.*.p85`, a property
`computeStats` never produces, so `x >= undefined` is false and the
detector returns `null` — here on a node whose complexity and LOC both sit
at the spec-side nearest-rank 85th percentile of the sample. -/
theorem workhorse_never_fires :
    (c3Node.complexity : ℚ) ≥
      percentile (jsSortBy (fun a b => decide (a ≤ b))
        (c3Graph.getAllNodes.map (fun n => (n.complexity : ℚ)))) (85/100) ∧
    (c3Node.linesOfCode : ℚ) ≥
      percentile (jsSortBy (fun a b => decide (a ≤ b))
        (c3Graph.getAllNodes.map (fun n => (n.linesOfCode : ℚ)))) (85/100) ∧
    (computeStats c3Graph).map
      (fun s => WORKHORSE.detect c3Node c3Graph s noGitCtx) =
      some (Except.ok none) := by
  refine ⟨by with_unfolding_all decide, by with_unfolding_all decide, ?_⟩
  with_unfolding_all rfl

/-- C4 (code bug): on a node whose fan-in 5 meets the Boss threshold
`max(p95, 5)`, the Boss detector reaches `topPct`, which calls the absent
`rank` method of the stats object and throws a TypeError instead of
returning a result. -/
theorem boss_topPct_throws :
    (computeStats c4Graph).map
      (fun s => BOSS.detect c4Node c4Graph s noGitCtx) =
      some (Except.error JsError.typeError) := by
  with_unfolding_all rfl

/-- C9 (code bug): without git metrics, classification is supposed to
proceed and merely omit the git archetypes, but `classify` propagates the
Boss detector TypeError on this graph instead of returning per-node
lists. -/
theorem classify_throws_without_git :
    classify c4Graph none = Except.error JsError.typeError := by
  with_unfolding_all rfl

/-- C5 counterexample: a call `obj.map(...)` in a project with exactly one
function named `map` does resolve (to that function) when the unique `map`
is defined in the caller's own file — strategy 3 fires before the
deny-list guard of strategy 4, so the claim's unconditional
`resolved = false` is wrong. -/
theorem map_call_resolves_via_same_file :
    (c5Graph.getAllNodes.filter (fun n => n.name = "map")).length = 1 ∧
    (resolveCall c5Call [] (buildNameIndex c5Graph) (buildExportIndex c5Graph)
      c5Graph relProj).resolved = true ∧
    (resolveCall c5Call [] (buildNameIndex c5Graph) (buildExportIndex c5Graph)
      c5Graph relProj).toId = some "a.js::map" := by
  refine ⟨by decide, by decide, by decide⟩

theorem resolveCall_no_import_bindings
    (c : RawCall) (importMap : List (String × ImportEntry))
    (nameIndex : List (String × List String))
    (exportIndex : List (String × String)) (graph : CallGraph)
    (rel : String → String)
    (h1 : mapGet importMap c.calleeName = none)
    (h2 : ∀ obj, c.calleeObject = some obj → mapGet importMap obj = none) :
    resolveCall c importMap nameIndex exportIndex graph rel =
      strategy3 c nameIndex graph := by
  unfold resolveCall
  rw [h1]
  cases hobj : c.calleeObject with
  | none => simp only [strategy2, hobj]
  | some obj => simp only [strategy2, hobj, h2 obj hobj]

/-- C5 amended: when the called name has no import binding and the callee
object has no import binding (so strategies 1 and 2 cannot fire), a call
to `map` with exactly one project-wide match stays unresolved provided
that match is not in the caller's own file (the deny-list suppresses
strategy 4), while a call to `transformUser` with exactly one project-wide
match resolves to it (not deny-listed). -/
theorem deny_list_suppression_amended
    (c : RawCall) (importMap : List (String × ImportEntry))
    (graph : CallGraph) (rel : String → String) (t : String)
    (h1 : mapGet importMap c.calleeName = none)
    (h2 : ∀ obj, c.calleeObject = some obj → mapGet importMap obj = none) :
    (c.calleeName = "map" →
      (mapGet (buildNameIndex graph) "map").getD [] = [t] →
      (graph.getNode t).map (fun n => n.relPath) ≠
        (graph.getNode c.fromId).map (fun n => n.relPath) →
      (resolveCall c importMap (buildNameIndex graph)
        (buildExportIndex graph) graph rel).resolved = false ∧
      (resolveCall c importMap (buildNameIndex graph)
        (buildExportIndex graph) graph rel).toId = none) ∧
    (c.calleeName = "transformUser" →
      (mapGet (buildNameIndex graph) "transformUser").getD [] = [t] →
      (resolveCall c importMap (buildNameIndex graph)
        (buildExportIndex graph) graph rel).resolved = true ∧
      (resolveCall c importMap (buildNameIndex graph)
        (buildExportIndex graph) graph rel).toId = some t) := by
  rw [resolveCall_no_import_bindings c importMap _ _ graph rel h1 h2]
  constructor
  · intro hname hbucket hrel
    have hmem : "map" ∈ NATIVE_METHOD_NAMES := by decide
    simp [strategy3, strategy4, hname, hbucket, hrel, hmem, makeEdge]
  · intro hname hbucket
    have hmem : "transformUser" ∉ NATIVE_METHOD_NAMES := by decide
    by_cases hsame : (graph.getNode t).map (fun n => n.relPath) =
        (graph.getNode c.fromId).map (fun n => n.relPath)
    · simp [strategy3, hname, hbucket, hsame, makeEdge]
    · simp [strategy3, strategy4, hname, hbucket, hsame, hmem, makeEdge]

/-- C5 amended witness: the concrete `transformUser` call resolves to the
unique cross-file match. -/
theorem deny_list_suppression_amended_witness :
    mapGet ([] : List (String × ImportEntry)) "transformUser" = none ∧
    (mapGet (buildNameIndex c5bGraph) "transformUser").getD [] =
      ["b.js::transformUser"] ∧
    (resolveCall c5bCall [] (buildNameIndex c5bGraph)
      (buildExportIndex c5bGraph) c5bGraph relProj).resolved = true ∧
    (resolveCall c5bCall [] (buildNameIndex c5bGraph)
      (buildExportIndex c5bGraph) c5bGraph relProj).toId =
      some "b.js::transformUser" := by
  refine ⟨rfl, by decide, ?_⟩
  exact (deny_list_suppression_amended c5bCall [] c5bGraph relProj
    "b.js::transformUser" rfl (fun obj hobj => rfl)).2 rfl (by decide)

theorem mem_insertSorted {α : Type} (le : α → α → Bool) (x b : α) :
    ∀ l : List α, b ∈ insertSorted le x l ↔ b = x ∨ b ∈ l := by
  intro l
  induction l with
  | nil => simp [insertSorted]
  | cons y t ih =>
      unfold insertSorted
      by_cases h : le x y = true
      · simp [h]
      · simp only [h, Bool.false_eq_true, if_false, List.mem_cons, ih]
        tauto

theorem length_insertSorted {α : Type} (le : α → α → Bool) (x : α) :
    ∀ l : List α, (insertSorted le x l).length = l.length + 1 := by
  intro l
  induction l with
  | nil => rfl
  | cons y t ih =>
      unfold insertSorted
      by_cases h : le x y = true
      · simp [h]
      · simp [h, ih]

theorem length_jsSortBy {α : Type} (le : α → α → Bool) (l : List α) :
    (jsSortBy le l).length = l.length := by
  induction l with
  | nil => rfl
  | cons y t ih =>
      show (insertSorted le y (jsSortBy le t)).length = t.length + 1
      rw [length_insertSorted, ih]

theorem pairwise_insertSorted {α : Type} (le : α → α → Bool)
    (htrans : ∀ a b c, le a b = true → le b c = true → le a c = true)
    (htot : ∀ a b, le a b = true ∨ le b a = true) (x : α) :
    ∀ l : List α, l.Pairwise (fun a b => le a b = true) →
      (insertSorted le x l).Pairwise (fun a b => le a b = true) := by
  intro l
  induction l with
  | nil => intro _; simp [insertSorted]
  | cons y t ih =>
      intro hp
      unfold insertSorted
      by_cases h : le x y = true
      · simp only [h, if_true]
        constructor
        · intro b hb
          rcases List.mem_cons.mp hb with hby | hbt
          · subst hby; exact h
          · exact htrans x y b h ((List.pairwise_cons.mp hp).1 b hbt)
        · exact hp
      · simp only [h, Bool.false_eq_true, if_false]
        constructor
        · intro b hb
          rcases (mem_insertSorted le x b t).mp hb with hbx | hbt
          · rw [hbx]
            rcases htot x y with hxy | hyx
            · exact absurd hxy h
            · exact hyx
          · exact (List.pairwise_cons.mp hp).1 b hbt
        · exact ih (List.pairwise_cons.mp hp).2

theorem pairwise_jsSortBy {α : Type} (le : α → α → Bool)
    (htrans : ∀ a b c, le a b = true → le b c = true → le a c = true)
    (htot : ∀ a b, le a b = true ∨ le b a = true) (l : List α) :
    (jsSortBy le l).Pairwise (fun a b => le a b = true) := by
  induction l with
  | nil => simp [jsSortBy]
  | cons y t ih =>
      exact pairwise_insertSorted le htrans htot y (jsSortBy le t) ih

theorem getD_le_getD_sorted (l : List ℚ)
    (hp : l.Pairwise (fun a b => decide (a ≤ b) = true)) (i j : Nat)
    (hij : i ≤ j) (hj : j < l.length) : l.getD i 0 ≤ l.getD j 0 := by
  have hp' : l.Pairwise (fun a b => a ≤ b) :=
    hp.imp (fun h => of_decide_eq_true h)
  have hi : i < l.length := lt_of_le_of_lt hij hj
  rw [List.getD_eq_getElem?_getD, List.getD_eq_getElem?_getD,
    List.getElem?_eq_getElem hi, List.getElem?_eq_getElem hj]
  rcases lt_or_eq_of_le hij with hlt | heq
  · exact List.pairwise_iff_get.mp hp' ⟨i, hi⟩ ⟨j, hj⟩ hlt
  · subst heq; exact le_refl _

theorem percentile_idx_le (n : Nat) (hn : n ≠ 0) (q : ℚ) (_h0 : 0 ≤ q)
    (hq : q ≤ 1) : (⌊q * ((n : ℚ) - 1)⌋).toNat ≤ n - 1 := by
  have h1 : (1 : ℚ) ≤ (n : ℚ) := by
    exact_mod_cast Nat.one_le_iff_ne_zero.mpr hn
  have hm : (0 : ℚ) ≤ (n : ℚ) - 1 := by linarith
  have hle : q * ((n : ℚ) - 1) ≤ (n : ℚ) - 1 := by
    nlinarith
  have hcast : (n : ℚ) - 1 = ((n - 1 : ℕ) : ℚ) := by
    push_cast [Nat.cast_sub (Nat.one_le_iff_ne_zero.mpr hn)]
    ring
  have hfl : ⌊q * ((n : ℚ) - 1)⌋ ≤ (n - 1 : ℕ) := by
    have hle2 : q * ((n : ℚ) - 1) ≤ ((n - 1 : ℕ) : ℚ) := by
      rw [← hcast]; exact hle
    calc ⌊q * ((n : ℚ) - 1)⌋ ≤ ⌊((n - 1 : ℕ) : ℚ)⌋ := Int.floor_le_floor hle2
      _ = (n - 1 : ℕ) := Int.floor_natCast _
  calc (⌊q * ((n : ℚ) - 1)⌋).toNat ≤ ((n - 1 : ℕ) : ℤ).toNat :=
        Int.toNat_le_toNat hfl
    _ = n - 1 := Int.toNat_natCast _

theorem percentile_idx_mono (n : Nat) (hn : n ≠ 0) (p q : ℚ) (_h0 : 0 ≤ p)
    (hpq : p ≤ q) :
    (⌊p * ((n : ℚ) - 1)⌋).toNat ≤ (⌊q * ((n : ℚ) - 1)⌋).toNat := by
  have h1 : (1 : ℚ) ≤ (n : ℚ) := by
    exact_mod_cast Nat.one_le_iff_ne_zero.mpr hn
  have hm : (0 : ℚ) ≤ (n : ℚ) - 1 := by linarith
  exact Int.toNat_le_toNat (Int.floor_le_floor
    (mul_le_mul_of_nonneg_right hpq hm))

theorem sorted_percentile_le_percentile (sorted : List ℚ)
    (hp : sorted.Pairwise (fun a b => decide (a ≤ b) = true))
    (hne : sorted.length ≠ 0) (p q : ℚ) (h0 : 0 ≤ p) (hpq : p ≤ q)
    (hq : q ≤ 1) : percentile sorted p ≤ percentile sorted q := by
  unfold percentile
  rw [if_neg hne, if_neg hne]
  apply getD_le_getD_sorted sorted hp _ _
    (percentile_idx_mono sorted.length hne p q h0 hpq)
  have := percentile_idx_le sorted.length hne q (le_trans h0 hpq) hq
  omega

theorem sorted_percentile_le_max (sorted : List ℚ)
    (hp : sorted.Pairwise (fun a b => decide (a ≤ b) = true))
    (hne : sorted.length ≠ 0) (q : ℚ) (h0 : 0 ≤ q) (hq : q ≤ 1) :
    percentile sorted q ≤ sorted.getD (sorted.length - 1) 0 := by
  unfold percentile
  rw [if_neg hne]
  apply getD_le_getD_sorted sorted hp _ _
    (percentile_idx_le sorted.length hne q h0 hq)
  omega

theorem summarize_percentile_chain (values : List ℚ)
    (h : values.length ≠ 0) : percentileChain (summarize values) := by
  have htrans : ∀ a b c : ℚ, decide (a ≤ b) = true → decide (b ≤ c) = true →
      decide (a ≤ c) = true := by
    intro a b c hab hbc
    exact decide_eq_true (le_trans (of_decide_eq_true hab)
      (of_decide_eq_true hbc))
  have htot : ∀ a b : ℚ, decide (a ≤ b) = true ∨ decide (b ≤ a) = true := by
    intro a b
    rcases le_total a b with hab | hba
    · exact Or.inl (decide_eq_true hab)
    · exact Or.inr (decide_eq_true hba)
  have hp := pairwise_jsSortBy (fun a b : ℚ => decide (a ≤ b)) htrans htot
    values
  have hlen : (jsSortBy (fun a b : ℚ => decide (a ≤ b)) values).length ≠ 0 := by
    rw [length_jsSortBy]; exact h
  unfold summarize percentileChain
  refine ⟨?_, ?_, ?_, ?_⟩
  · exact sorted_percentile_le_percentile _ hp hlen (1/2) (3/4)
      (by norm_num) (by norm_num) (by norm_num)
  · exact sorted_percentile_le_percentile _ hp hlen (3/4) (9/10)
      (by norm_num) (by norm_num) (by norm_num)
  · exact sorted_percentile_le_percentile _ hp hlen (9/10) (19/20)
      (by norm_num) (by norm_num) (by norm_num)
  · exact sorted_percentile_le_max _ hp hlen (19/20)
      (by norm_num) (by norm_num)

/-- C6: for every non-empty graph, each of the seven metric summaries of
`computeStats` satisfies `p50 ≤ p75 ≤ p90 ≤ p95 ≤ max`, the percentile
being the nearest-rank value at `floor(p (n - 1))` of the sorted
sample. -/
theorem computeStats_percentiles_monotone (g : CallGraph) (s : Stats)
    (h : computeStats g = some s) :
    percentileChain s.fanIn ∧ percentileChain s.fanOut ∧
    percentileChain s.complexity ∧ percentileChain s.linesOfCode ∧
    percentileChain s.params ∧ percentileChain s.crossModuleFanOut ∧
    percentileChain s.crossModuleRatio := by
  by_cases hn : g.getAllNodes.length = 0
  · rw [computeStats] at h
    simp only [hn, if_true] at h
    exact absurd h (by simp)
  · rw [computeStats] at h
    simp only [hn, if_false] at h
    have hs := Option.some_injective _ h
    subst hs
    have hmap : ∀ f : FunctionNode → ℚ,
        (g.getAllNodes.map f).length ≠ 0 := by
      intro f
      rw [List.length_map]
      exact hn
    exact ⟨summarize_percentile_chain _ (hmap _),
      summarize_percentile_chain _ (hmap _),
      summarize_percentile_chain _ (hmap _),
      summarize_percentile_chain _ (hmap _),
      summarize_percentile_chain _ (hmap _),
      summarize_percentile_chain _ (hmap _),
      summarize_percentile_chain _ (hmap _)⟩

/-- C6 witness: the three-node example graph. -/
theorem computeStats_percentiles_monotone_witness :
    computeStats c6Graph = some c6Stats ∧ percentileChain c6Stats.fanIn := by
  constructor
  · with_unfolding_all rfl
  · exact (computeStats_percentiles_monotone c6Graph c6Stats
      (by with_unfolding_all rfl)).1

theorem mapHas_of_mem {α : Type} (m : List (String × α)) (k : String)
    (v : α) (h : (k, v) ∈ m) : mapHas m k = true := by
  unfold mapHas
  exact List.any_eq_true.mpr ⟨(k, v), h, by simp⟩

theorem mapGet_of_mem_nodup {α : Type} :
    ∀ (m : List (String × α)) (k : String) (v : α), (k, v) ∈ m →
      (m.map Prod.fst).Nodup → mapGet m k = some v := by
  intro m
  induction m with
  | nil => intro k v h _; cases h
  | cons p t ih =>
      intro k v h hk
      rcases List.mem_cons.mp h with hp | ht
      · unfold mapGet
        rw [← hp]
        rw [List.find?_cons_of_pos _ (by simp)]
        rfl
      · have hkt : k ∈ t.map Prod.fst :=
          List.mem_map.mpr ⟨(k, v), ht, rfl⟩
        have hp1 : p.1 ∉ t.map Prod.fst :=
          (List.nodup_cons.mp (by simpa using hk)).1
        have hne : ¬(p.1 = k) := fun he => hp1 (he ▸ hkt)
        unfold mapGet
        rw [List.find?_cons_of_neg _ (by simp [hne])]
        exact ih k v ht (List.nodup_cons.mp (by simpa using hk)).2

theorem filterMap_congr_some {α β : Type} (f : α → Option β) (g : α → β) :
    ∀ l : List α, (∀ a ∈ l, f a = some (g a)) →
      l.filterMap f = l.map g := by
  intro l
  induction l with
  | nil => intro _; rfl
  | cons a t ih =>
      intro h
      rw [List.filterMap_cons, List.map_cons, h a (List.mem_cons_self a t),
        ih (fun b hb => h b (List.mem_cons_of_mem a hb))]

theorem makeChanged_self_neutral (k : String) (v : Diff.NodeSnapshot) :
    Diff.neutralUnchanged (Diff.makeChanged k v v) = true := by
  have harch : v.archetypes.filter (fun a => !(v.archetypes.contains a)) =
      [] := by
    rw [List.filter_eq_nil_iff]
    intro a ha
    simp [List.elem_iff, ha]
  unfold Diff.makeChanged Diff.neutralUnchanged
  simp only [harch, Diff.computeDelta, sub_self]
  simp [Diff.classify, Diff.checksOf]

/-- C8: diffing a snapshot map against itself yields no diffs and the
summary `{added 0, removed 0, stressed 0, improved 0, unchanged |m|}`:
every changed entry has an all-zero delta and no archetype change, so it
is folded into the unchanged count. -/
theorem computeDiff_self (m : List (String × Diff.NodeSnapshot)) (r : String)
    (hk : (m.map Prod.fst).Nodup) :
    Diff.computeDiff m m r r =
      { beforeRef := r, afterRef := r, diffs := [],
        summary := { added := 0, removed := 0, stressed := 0,
                     improved := 0, unchanged := m.length } } := by
  unfold Diff.computeDiff
  have hadded : m.filterMap (fun p =>
      if mapHas m p.1 then none else some (Diff.makeAdded p.1 p.2)) = [] := by
    rw [List.filterMap_eq_nil_iff]
    intro p hp
    rw [mapHas_of_mem m p.1 p.2 (by simpa using hp)]
    rfl
  have hremoved : m.filterMap (fun p =>
      if mapHas m p.1 then none else some (Diff.makeRemoved p.1 p.2)) =
      [] := by
    rw [List.filterMap_eq_nil_iff]
    intro p hp
    rw [mapHas_of_mem m p.1 p.2 (by simpa using hp)]
    rfl
  have hchanged : m.filterMap (fun p =>
      (mapGet m p.1).map (fun a => Diff.makeChanged p.1 p.2 a)) =
      m.map (fun p => Diff.makeChanged p.1 p.2 p.2) := by
    apply filterMap_congr_some
    intro p hp
    rw [mapGet_of_mem_nodup m p.1 p.2 (by simpa using hp) hk]
    rfl
  have hneutral : ∀ d ∈ m.map (fun p => Diff.makeChanged p.1 p.2 p.2),
      Diff.neutralUnchanged d = true := by
    intro d hd
    rcases List.mem_map.mp hd with ⟨p, _, hpd⟩
    rw [← hpd]
    exact makeChanged_self_neutral p.1 p.2
  have hcount : (m.map (fun p => Diff.makeChanged p.1 p.2 p.2)).countP
      Diff.neutralUnchanged = m.length := by
    rw [List.countP_eq_length.mpr hneutral, List.length_map]
  have hkept : (m.map (fun p => Diff.makeChanged p.1 p.2 p.2)).filter
      (fun d => !(Diff.neutralUnchanged d)) = [] := by
    rw [List.filter_eq_nil_iff]
    intro d hd
    rw [hneutral d hd]
    simp
  simp only [hadded, hremoved, hchanged, hcount, hkept]
  rfl

/-- C8 witness: the one-entry snapshot map. -/
theorem computeDiff_self_witness :
    ((c8Map.map Prod.fst).Nodup) ∧
    Diff.computeDiff c8Map c8Map "v1" "v1" =
      { beforeRef := "v1", afterRef := "v1", diffs := [],
        summary := { added := 0, removed := 0, stressed := 0,
                     improved := 0, unchanged := 1 } } := by
  refine ⟨by decide, ?_⟩
  rw [computeDiff_self c8Map "v1" (by decide)]
  rfl

theorem foldl_preserves {β γ : Type} (P : β → Prop) (f : β → γ → β)
    (hf : ∀ acc x, P acc → P (f acc x)) :
    ∀ (l : List γ) (acc : β), P acc → P (l.foldl f acc) := by
  intro l
  induction l with
  | nil => intro acc h; exact h
  | cons x t ih => intro acc h; exact ih (f acc x) (hf acc x h)

theorem foldl_preserves_mem {β γ : Type} (P : β → Prop) (f : β → γ → β)
    (l : List γ) (hf : ∀ acc x, x ∈ l → P acc → P (f acc x)) :
    ∀ (t : List γ), (∀ x ∈ t, x ∈ l) → ∀ acc : β, P acc →
      P (t.foldl f acc) := by
  intro t
  induction t with
  | nil => intro _ acc h; exact h
  | cons x r ih =>
      intro hsub acc h
      exact ih (fun y hy => hsub y (List.mem_cons_of_mem x hy)) (f acc x)
        (hf acc x (hsub x (List.mem_cons_self x r)) h)

theorem foldl_attains {β γ : Type} (P : β → Prop) (f : β → γ → β)
    (hmono : ∀ acc x, P acc → P (f acc x)) (l : List γ) (x : γ)
    (hx : x ∈ l) (hstep : ∀ acc, P (f acc x)) (acc : β) :
    P (l.foldl f acc) := by
  obtain ⟨s, t, hl⟩ := List.append_of_mem hx
  subst hl
  rw [List.foldl_append]
  simp only [List.foldl_cons]
  exact foldl_preserves P f hmono t _ (hstep _)

theorem mem_mapSet {α : Type} (m : List (String × α)) (k : String) (v : α) :
    ∀ p ∈ mapSet m k v, p = (k, v) ∨ p ∈ m := by
  intro p hp
  unfold mapSet at hp
  by_cases hA : m.any (fun q => decide (q.1 = k)) = true
  · simp only [hA, if_true] at hp
    rcases List.mem_map.mp hp with ⟨q, hq, hqp⟩
    by_cases hqk : q.1 = k
    · left; rw [← hqp]; simp [hqk]
    · right; rw [← hqp]; simpa [hqk] using hq
  · simp only [hA, if_false] at hp
    rcases List.mem_append.mp hp with h | h
    · right; exact h
    · left; simpa using h

theorem mapGet_mem {α : Type} (m : List (String × α)) (k : String) (v : α)
    (h : mapGet m k = some v) : (k, v) ∈ m := by
  unfold mapGet at h
  cases hf : m.find? (fun p => decide (p.1 = k)) with
  | none => rw [hf] at h; cases h
  | some p =>
      rw [hf] at h
      have hp := List.mem_of_find?_eq_some hf
      have hk := List.find?_some hf
      simp at hk h
      rw [← h, ← hk]
      exact hp

theorem mem_jsSortBy {α : Type} (le : α → α → Bool) (b : α) :
    ∀ l : List α, b ∈ jsSortBy le l ↔ b ∈ l := by
  intro l
  induction l with
  | nil => simp [jsSortBy]
  | cons y t ih =>
      show b ∈ insertSorted le y (jsSortBy le t) ↔ _
      rw [mem_insertSorted, List.mem_cons, ih]

theorem mem_setAdd_self (s : List String) (x : String) : x ∈ setAdd s x := by
  unfold setAdd
  by_cases h : x ∈ s
  · simp [h]
  · simp [h]

theorem mem_setAdd_of_mem (s : List String) (x y : String) (h : y ∈ s) :
    y ∈ setAdd s x := by
  unfold setAdd
  by_cases hx : x ∈ s
  · simp [hx, h]
  · simp [hx, List.mem_append, h]

theorem setAdd_ne_nil (s : List String) (x : String) : setAdd s x ≠ [] := by
  unfold setAdd
  by_cases hx : x ∈ s
  · simp only [hx, if_true]
    intro he
    rw [he] at hx
    cases hx
  · simp [hx]

theorem bridgersAdd_preserves_ne (acc : List (String × List String))
    (n a b : String) (h : ∀ p ∈ acc, p.2 ≠ ([] : List String)) :
    ∀ p ∈ bridgersAdd acc n a b, p.2 ≠ ([] : List String) := by
  intro p hp
  unfold bridgersAdd at hp
  by_cases hab : a = b
  · rw [if_pos hab] at hp; exact h p hp
  · rw [if_neg hab] at hp
    rcases mem_mapSet _ _ _ p hp with hnew | hold
    · rw [hnew]; exact setAdd_ne_nil _ n
    · exact h p hold

theorem bridgersOf_ne (nms : List (String × (List String × List String))) :
    ∀ p ∈ bridgersOf nms, p.2 ≠ ([] : List String) := by
  unfold bridgersOf
  refine foldl_preserves
    (fun acc : List (String × List String) =>
      ∀ p ∈ acc, p.2 ≠ ([] : List String)) _ ?_ nms [] ?_
  · intro acc e h
    refine foldl_preserves
      (fun acc : List (String × List String) =>
        ∀ p ∈ acc, p.2 ≠ ([] : List String)) _ ?_ e.2.1 acc h
    intro acc a h
    refine foldl_preserves
      (fun acc : List (String × List String) =>
        ∀ p ∈ acc, p.2 ≠ ([] : List String)) _ ?_ e.2.2 acc h
    intro acc b h
    exact bridgersAdd_preserves_ne acc e.1 a b h
  · intro p hp; cases hp

/-- The node is in the bridgers set stored under the key. -/
def inBucket (acc : List (String × List String)) (key x : String) : Prop :=
  ∃ s, mapGet acc key = some s ∧ x ∈ s

theorem bridgersAdd_mono (acc : List (String × List String))
    (n a b key x : String) (h : inBucket acc key x) :
    inBucket (bridgersAdd acc n a b) key x := by
  unfold bridgersAdd
  by_cases hab : a = b
  · rw [if_pos hab]; exact h
  · rw [if_neg hab]
    rcases h with ⟨s, hs, hx⟩
    by_cases hk : key = a ++ "::" ++ b
    · refine ⟨setAdd ((mapGet acc (a ++ "::" ++ b)).getD []) n, ?_, ?_⟩
      · rw [hk, mapGet_mapSet_self]
      · rw [← hk, hs]
        exact mem_setAdd_of_mem s n x hx
    · refine ⟨s, ?_, hx⟩
      rw [mapGet_mapSet_ne _ _ _ _ hk, hs]

theorem bridgersAdd_adds (acc : List (String × List String))
    (n a b : String) (hab : a ≠ b) :
    inBucket (bridgersAdd acc n a b) (a ++ "::" ++ b) n := by
  unfold bridgersAdd
  rw [if_neg hab]
  refine ⟨setAdd ((mapGet acc (a ++ "::" ++ b)).getD []) n, ?_, ?_⟩
  · rw [mapGet_mapSet_self]
  · exact mem_setAdd_self _ n

theorem bridgersOf_contains
    (nms : List (String × (List String × List String)))
    (nodeId : String) (cm km : List String) (a b : String)
    (hmem : (nodeId, (cm, km)) ∈ nms) (ha : a ∈ cm) (hb : b ∈ km)
    (hab : a ≠ b) :
    inBucket (bridgersOf nms) (a ++ "::" ++ b) nodeId := by
  unfold bridgersOf
  apply foldl_attains (inBucket · (a ++ "::" ++ b) nodeId) _ ?hmono nms
    (nodeId, (cm, km)) hmem ?hstep
  case hmono =>
    intro acc e h
    apply foldl_preserves (inBucket · (a ++ "::" ++ b) nodeId)
    · intro acc a2 h
      apply foldl_preserves (inBucket · (a ++ "::" ++ b) nodeId)
      · intro acc b2 h
        exact bridgersAdd_mono acc e.1 a2 b2 _ nodeId h
      · exact h
    · exact h
  case hstep =>
    intro acc
    show inBucket (cm.foldl _ acc) (a ++ "::" ++ b) nodeId
    apply foldl_attains (inBucket · (a ++ "::" ++ b) nodeId) _ ?imono cm
      a ha ?istep
    case imono =>
      intro acc a2 h
      apply foldl_preserves (inBucket · (a ++ "::" ++ b) nodeId)
      · intro acc b2 h
        exact bridgersAdd_mono acc nodeId a2 b2 _ nodeId h
      · exact h
    case istep =>
      intro acc
      apply foldl_attains (inBucket · (a ++ "::" ++ b) nodeId) _ ?jmono km
        b hb ?jstep
      case jmono =>
        intro acc b2 h
        exact bridgersAdd_mono acc nodeId a b2 _ nodeId h
      case jstep =>
        intro acc
        exact bridgersAdd_adds acc nodeId a b hab

theorem bridgeTotal_pos (bridgers : List (String × List String))
    (hne : ∀ p ∈ bridgers, p.2 ≠ ([] : List String)) (a b : String) :
    1 ≤ bridgeTotal bridgers a b := by
  unfold bridgeTotal
  cases hm : mapGet bridgers (a ++ "::" ++ b) with
  | none => simp
  | some s =>
      have hmem := mapGet_mem _ _ _ hm
      have hs := hne _ hmem
      show 1 ≤ s.length
      have hpos : 0 < s.length := List.length_pos.mpr hs
      omega

theorem exclusivity_pos_le_one (bridgers : List (String × List String))
    (hne : ∀ p ∈ bridgers, p.2 ≠ ([] : List String)) (a b : String) :
    0 < exclusivityOf bridgers a b ∧ exclusivityOf bridgers a b ≤ 1 := by
  have ht := bridgeTotal_pos bridgers hne a b
  have htq : (1 : ℚ) ≤ (bridgeTotal bridgers a b : ℚ) := by
    exact_mod_cast ht
  have htpos : (0 : ℚ) < (bridgeTotal bridgers a b : ℚ) := by linarith
  unfold exclusivityOf
  constructor
  · exact div_pos one_pos htpos
  · rw [div_le_one htpos]; exact htq

theorem exclusivity_eq_one_total (bridgers : List (String × List String))
    (a b : String) (h : exclusivityOf bridgers a b = 1)
    (hne : ∀ p ∈ bridgers, p.2 ≠ ([] : List String)) :
    bridgeTotal bridgers a b = 1 := by
  have ht := bridgeTotal_pos bridgers hne a b
  have htpos : (0 : ℚ) < (bridgeTotal bridgers a b : ℚ) := by
    exact_mod_cast lt_of_lt_of_le Nat.zero_lt_one ht
  unfold exclusivityOf at h
  have : (bridgeTotal bridgers a b : ℚ) = 1 := by
    field_simp at h
    linarith
  exact_mod_cast this

theorem bridgeStep_fst_mono (bridgers : List (String × List String))
    (a b : String) (acc : ℚ × List BridgePair) :
    acc.1 ≤ (bridgeStep bridgers a b acc).1 := by
  unfold bridgeStep
  by_cases hab : a = b
  · rw [if_pos hab]
  · rw [if_neg hab]
    by_cases hlt : acc.1 < exclusivityOf bridgers a b
    · simp only [hlt, if_true]
      exact le_of_lt hlt
    · simp only [hlt, if_false]
      exact le_refl _

theorem bridgeStep_fst_ge_excl (bridgers : List (String × List String))
    (a b : String) (acc : ℚ × List BridgePair) (hab : a ≠ b) :
    exclusivityOf bridgers a b ≤ (bridgeStep bridgers a b acc).1 := by
  unfold bridgeStep
  rw [if_neg hab]
  by_cases hlt : acc.1 < exclusivityOf bridgers a b
  · simp only [hlt, if_true]
    exact le_refl _
  · simp only [hlt, if_false]
    exact le_of_not_lt hlt

theorem bridgeStep_fst_cases (bridgers : List (String × List String))
    (a b : String) (acc : ℚ × List BridgePair) :
    (bridgeStep bridgers a b acc).1 = acc.1 ∨
      (a ≠ b ∧ (bridgeStep bridgers a b acc).1 =
        exclusivityOf bridgers a b) := by
  unfold bridgeStep
  by_cases hab : a = b
  · rw [if_pos hab]; left; rfl
  · rw [if_neg hab]
    by_cases hlt : acc.1 < exclusivityOf bridgers a b
    · right; exact ⟨hab, by simp [hlt]⟩
    · left; simp [hlt]

theorem bridgeStep_pairs_sub (bridgers : List (String × List String))
    (a b : String) (acc : ℚ × List BridgePair) :
    ∀ p ∈ (bridgeStep bridgers a b acc).2, p ∈ acc.2 ∨
      (a ≠ b ∧ p.fromMod = a ∧ p.toMod = b ∧
        p.exclusivity = exclusivityOf bridgers a b ∧
        (1/2 : ℚ) ≤ p.exclusivity) := by
  intro p hp
  unfold bridgeStep at hp
  by_cases hab : a = b
  · rw [if_pos hab] at hp; left; exact hp
  · rw [if_neg hab] at hp
    by_cases hge : exclusivityOf bridgers a b ≥ 1/2
    · simp only [hge, if_true] at hp
      rcases List.mem_append.mp hp with h | h
      · left; exact h
      · right
        have hpe := List.mem_singleton.mp h
        rw [hpe]
        exact ⟨hab, rfl, rfl, rfl, hge⟩
    · simp only [hge, if_false] at hp
      left; exact hp

theorem bridgePass3_bound (bridgers : List (String × List String))
    (nodeId : String) (cm km : List String) (a b : String) (ha : a ∈ cm)
    (hb : b ∈ km) (hab : a ≠ b) :
    exclusivityOf bridgers a b ≤
      (bridgePass3 bridgers nodeId cm km).1 := by
  have hinmono : ∀ (x : String) (acc : ℚ × List BridgePair),
      exclusivityOf bridgers a b ≤ acc.1 →
      exclusivityOf bridgers a b ≤
        (km.foldl (fun acc y => bridgeStep bridgers x y acc) acc).1 := by
    intro x acc h
    refine foldl_preserves
      (fun acc : ℚ × List BridgePair =>
        exclusivityOf bridgers a b ≤ acc.1) _ ?_ km acc h
    intro acc y h
    exact le_trans h (bridgeStep_fst_mono bridgers x y acc)
  have hstep : ∀ acc : ℚ × List BridgePair,
      exclusivityOf bridgers a b ≤
        (km.foldl (fun acc y => bridgeStep bridgers a y acc) acc).1 := by
    intro acc
    refine foldl_attains
      (fun acc : ℚ × List BridgePair =>
        exclusivityOf bridgers a b ≤ acc.1) _ ?_ km b hb ?_ acc
    · intro acc y h
      exact le_trans h (bridgeStep_fst_mono bridgers a y acc)
    · intro acc
      exact bridgeStep_fst_ge_excl bridgers a b acc hab
  unfold bridgePass3
  exact foldl_attains
    (fun acc : ℚ × List BridgePair => exclusivityOf bridgers a b ≤ acc.1)
    _ (fun acc x h => hinmono x acc h) cm a ha hstep ((0 : ℚ), [])

theorem bridgePass3_attained (bridgers : List (String × List String))
    (nodeId : String) (cm km : List String) :
    (bridgePass3 bridgers nodeId cm km).1 = 0 ∨
      ∃ a, a ∈ cm ∧ ∃ b, b ∈ km ∧ a ≠ b ∧
        (bridgePass3 bridgers nodeId cm km).1 =
          exclusivityOf bridgers a b := by
  have hf : ∀ (acc : ℚ × List BridgePair) (x : String), x ∈ cm →
      (acc.1 = 0 ∨ ∃ a, a ∈ cm ∧ ∃ b, b ∈ km ∧ a ≠ b ∧
        acc.1 = exclusivityOf bridgers a b) →
      ((km.foldl (fun acc y => bridgeStep bridgers x y acc) acc).1 = 0 ∨
        ∃ a, a ∈ cm ∧ ∃ b, b ∈ km ∧ a ≠ b ∧
          (km.foldl (fun acc y => bridgeStep bridgers x y acc) acc).1 =
            exclusivityOf bridgers a b) := by
    intro acc x hx h
    refine foldl_preserves_mem
      (fun acc : ℚ × List BridgePair => acc.1 = 0 ∨
        ∃ a, a ∈ cm ∧ ∃ b, b ∈ km ∧ a ≠ b ∧
          acc.1 = exclusivityOf bridgers a b) _ km ?_ km
      (fun y hy => hy) acc h
    intro acc y hy h
    rcases bridgeStep_fst_cases bridgers x y acc with heq | ⟨hxy, heq⟩
    · rw [heq]; exact h
    · right; exact ⟨x, hx, y, hy, hxy, heq⟩
  unfold bridgePass3
  exact foldl_preserves_mem
    (fun acc : ℚ × List BridgePair => acc.1 = 0 ∨
      ∃ a, a ∈ cm ∧ ∃ b, b ∈ km ∧ a ≠ b ∧
        acc.1 = exclusivityOf bridgers a b) _ cm hf cm (fun x hx => hx)
    ((0 : ℚ), []) (Or.inl rfl)

theorem bridgePass3_pairs (bridgers : List (String × List String))
    (nodeId : String) (cm km : List String) :
    ∀ p ∈ (bridgePass3 bridgers nodeId cm km).2,
      ∃ a, a ∈ cm ∧ ∃ b, b ∈ km ∧ a ≠ b ∧ p.fromMod = a ∧ p.toMod = b ∧
        p.exclusivity = exclusivityOf bridgers a b ∧
        (1/2 : ℚ) ≤ p.exclusivity := by
  have hf : ∀ (acc : ℚ × List BridgePair) (x : String), x ∈ cm →
      (∀ p ∈ acc.2, ∃ a, a ∈ cm ∧ ∃ b, b ∈ km ∧ a ≠ b ∧ p.fromMod = a ∧
        p.toMod = b ∧ p.exclusivity = exclusivityOf bridgers a b ∧
        (1/2 : ℚ) ≤ p.exclusivity) →
      (∀ p ∈ (km.foldl (fun acc y => bridgeStep bridgers x y acc) acc).2,
        ∃ a, a ∈ cm ∧ ∃ b, b ∈ km ∧ a ≠ b ∧ p.fromMod = a ∧ p.toMod = b ∧
          p.exclusivity = exclusivityOf bridgers a b ∧
          (1/2 : ℚ) ≤ p.exclusivity) := by
    intro acc x hx h
    refine foldl_preserves_mem
      (fun acc : ℚ × List BridgePair => ∀ p ∈ acc.2,
        ∃ a, a ∈ cm ∧ ∃ b, b ∈ km ∧ a ≠ b ∧ p.fromMod = a ∧ p.toMod = b ∧
          p.exclusivity = exclusivityOf bridgers a b ∧
          (1/2 : ℚ) ≤ p.exclusivity) _ km ?_ km (fun y hy => hy) acc h
    intro acc y hy h p hp
    rcases bridgeStep_pairs_sub bridgers x y acc p hp with hold | hnew
    · exact h p hold
    · exact ⟨x, hx, y, hy, hnew.1, hnew.2.1, hnew.2.2.1, hnew.2.2.2.1,
        hnew.2.2.2.2⟩
  unfold bridgePass3
  exact foldl_preserves_mem
    (fun acc : ℚ × List BridgePair => ∀ p ∈ acc.2,
      ∃ a, a ∈ cm ∧ ∃ b, b ∈ km ∧ a ≠ b ∧ p.fromMod = a ∧ p.toMod = b ∧
        p.exclusivity = exclusivityOf bridgers a b ∧
        (1/2 : ℚ) ≤ p.exclusivity) _ cm hf cm (fun x hx => hx)
    ((0 : ℚ), []) (by intro p hp; cases hp)

theorem computeBridgeScores_mem_spec (g : CallGraph) (nodeId : String)
    (info : BridgeInfo) (hmem : (nodeId, info) ∈ computeBridgeScores g) :
    ∃ cm km, (nodeId, (cm, km)) ∈ nodeModuleSetsOf g ∧
      (1/2 : ℚ) ≤
        (bridgePass3 (bridgersOf (nodeModuleSetsOf g)) nodeId cm km).1 ∧
      info = bridgeResultOf (bridgersOf (nodeModuleSetsOf g)) nodeId
        cm km := by
  have main : ∀ k v, (k, v) ∈ computeBridgeScores g →
      ∃ cm km, (k, (cm, km)) ∈ nodeModuleSetsOf g ∧
        (1/2 : ℚ) ≤
          (bridgePass3 (bridgersOf (nodeModuleSetsOf g)) k cm km).1 ∧
        v = bridgeResultOf (bridgersOf (nodeModuleSetsOf g)) k cm km := by
    intro k v
    unfold computeBridgeScores
    refine foldl_preserves_mem
      (fun acc : List (String × BridgeInfo) => (k, v) ∈ acc →
        ∃ cm km, (k, (cm, km)) ∈ nodeModuleSetsOf g ∧
          (1/2 : ℚ) ≤
            (bridgePass3 (bridgersOf (nodeModuleSetsOf g)) k cm km).1 ∧
          v = bridgeResultOf (bridgersOf (nodeModuleSetsOf g)) k cm km)
      _ (nodeModuleSetsOf g) ?hf (nodeModuleSetsOf g) (fun x hx => hx) []
      (by intro h; cases h)
    case hf =>
      intro acc e he hacc hmem2
      by_cases h1 : e.2.1.length = 0 ∨ e.2.2.length = 0
      · rw [if_pos h1] at hmem2; exact hacc hmem2
      · rw [if_neg h1] at hmem2
        by_cases h2 : (bridgePass3 (bridgersOf (nodeModuleSetsOf g)) e.1
            e.2.1 e.2.2).1 ≥ 1/2
        · rw [if_pos h2] at hmem2
          rcases mem_mapSet _ _ _ (k, v) hmem2 with hnew | hold
          · have hk : k = e.1 := congrArg Prod.fst hnew
            have hv := congrArg Prod.snd hnew
            simp only at hk hv
            subst hk
            refine ⟨e.2.1, e.2.2, ?_, h2, hv⟩
            simpa using he
          · exact hacc hold
        · rw [if_neg h2] at hmem2; exact hacc hmem2
  exact main nodeId info hmem

/-- C7: every node reported by `computeBridgeScores` has overall score at
least 1/2 equalling the maximum exclusivity over its bridged module
pairs, every surfaced pair has exclusivity in (0, 1], and exclusivity 1
for a pair means the node is the sole member of that bridgers set. -/
theorem bridge_exclusivity_bounds (g : CallGraph) (nodeId : String)
    (info : BridgeInfo) (hmem : (nodeId, info) ∈ computeBridgeScores g) :
    (1/2 : ℚ) ≤ info.score ∧
    (∃ cm km, (nodeId, (cm, km)) ∈ nodeModuleSetsOf g ∧
      (∀ a ∈ cm, ∀ b ∈ km, a ≠ b →
        exclusivityOf (bridgersOf (nodeModuleSetsOf g)) a b ≤ info.score) ∧
      (∃ a, a ∈ cm ∧ ∃ b, b ∈ km ∧ a ≠ b ∧
        info.score = exclusivityOf (bridgersOf (nodeModuleSetsOf g)) a b)) ∧
    (∀ p ∈ info.pairs, 0 < p.exclusivity ∧ p.exclusivity ≤ 1 ∧
      (p.exclusivity = 1 →
        mapGet (bridgersOf (nodeModuleSetsOf g))
          (p.fromMod ++ "::" ++ p.toMod) = some [nodeId])) := by
  obtain ⟨cm, km, hnms, hge, hinfo⟩ :=
    computeBridgeScores_mem_spec g nodeId info hmem
  have hne := bridgersOf_ne (nodeModuleSetsOf g)
  have hscore : info.score =
      (bridgePass3 (bridgersOf (nodeModuleSetsOf g)) nodeId cm km).1 := by
    rw [hinfo]; rfl
  refine ⟨by rw [hscore]; exact hge, ⟨cm, km, hnms, ?_, ?_⟩, ?_⟩
  · intro a ha b hb hab
    rw [hscore]
    exact bridgePass3_bound _ nodeId cm km a b ha hb hab
  · rcases bridgePass3_attained (bridgersOf (nodeModuleSetsOf g)) nodeId
        cm km with hzero | hex
    · exfalso
      rw [hzero] at hge
      norm_num at hge
    · rw [hscore]; exact hex
  · intro p hp
    have hp2 : p ∈ (bridgePass3 (bridgersOf (nodeModuleSetsOf g)) nodeId
        cm km).2 := by
      have hpairs : info.pairs = jsSortBy
          (fun a b => decide (b.exclusivity ≤ a.exclusivity))
          (bridgePass3 (bridgersOf (nodeModuleSetsOf g)) nodeId cm km).2 := by
        rw [hinfo]; rfl
      rw [hpairs] at hp
      exact (mem_jsSortBy _ p _).mp hp
    obtain ⟨a, ha, b, hb, hab, hfrom, hto, hexcl, _⟩ :=
      bridgePass3_pairs _ nodeId cm km p hp2
    have hbounds := exclusivity_pos_le_one _ hne a b
    refine ⟨by rw [hexcl]; exact hbounds.1, by rw [hexcl]; exact hbounds.2,
      ?_⟩
    intro hone
    have hexone : exclusivityOf (bridgersOf (nodeModuleSetsOf g)) a b = 1 := by
      rw [← hexcl, hone]
    have htot := exclusivity_eq_one_total _ a b hexone hne
    obtain ⟨s, hs, hin⟩ :=
      bridgersOf_contains (nodeModuleSetsOf g) nodeId cm km a b hnms ha hb
        hab
    have hlen : s.length = 1 := by
      unfold bridgeTotal at htot
      rw [hs] at htot
      simpa using htot
    obtain ⟨y, hy⟩ := List.length_eq_one.mp hlen
    rw [hy] at hin
    have hyn : y = nodeId := by
      have := hin
      simp at this
      exact this.symm
    rw [hfrom, hto, hs, hy, hyn]

/-- C7 witness: in the three-module chain, `core/x.js::x` is reported as
the sole `api → db` bridge with score 1. -/
theorem bridge_exclusivity_bounds_witness :
    ("core/x.js::x", c7Info) ∈ computeBridgeScores c7Graph ∧
    (1/2 : ℚ) ≤ c7Info.score ∧
    ∀ p ∈ c7Info.pairs, 0 < p.exclusivity ∧ p.exclusivity ≤ 1 := by
  have hmem : ("core/x.js::x", c7Info) ∈ computeBridgeScores c7Graph := by
    with_unfolding_all decide
  have h := bridge_exclusivity_bounds c7Graph "core/x.js::x" c7Info hmem
  exact ⟨hmem, h.1, fun p hp => ⟨(h.2.2 p hp).1, (h.2.2 p hp).2.1⟩⟩

theorem addFold_nodes : ∀ (ns : List FunctionNode) (g : CallGraph),
    (ns.foldl CallGraph.addFunction g).nodes =
      ns.foldl (fun m n => mapSet m n.id n) g.nodes := by
  intro ns
  induction ns with
  | nil => intro g; rfl
  | cons n t ih => intro g; exact ih (g.addFunction n)

theorem insertFunctions_nodes (files : List FileParse) :
    (insertFunctions files).nodes =
      jsMapOfNodes (files.flatMap (fun f => f.functions)) := by
  unfold insertFunctions jsMapOfNodes
  have main : ∀ (fs : List FileParse) (g : CallGraph),
      (fs.foldl (fun g f => f.functions.foldl CallGraph.addFunction g)
        g).nodes =
      (fs.flatMap (fun f => f.functions)).foldl
        (fun m n => mapSet m n.id n) g.nodes := by
    intro fs
    induction fs with
    | nil => intro g; rfl
    | cons f t ih =>
        intro g
        simp only [List.foldl_cons, List.flatMap_cons, List.foldl_append]
        rw [ih, addFold_nodes]
  exact main files CallGraph.empty

theorem keys_mapSet_cases {α : Type} (m : List (String × α)) (k : String)
    (v : α) (k' : String) (h : k' ∈ (mapSet m k v).map Prod.fst) :
    k' ∈ m.map Prod.fst ∨ k' = k := by
  rcases List.mem_map.mp h with ⟨p, hp, hpk⟩
  rcases mem_mapSet m k v p hp with hnew | hold
  · right; rw [← hpk, hnew]
  · left; exact List.mem_map.mpr ⟨p, hold, hpk⟩

theorem keys_jsFold_sub : ∀ (ns : List FunctionNode)
    (m : List (String × FunctionNode)) (k : String),
    k ∈ ((ns.foldl (fun m n => mapSet m n.id n) m).map Prod.fst) →
    k ∈ m.map Prod.fst ∨ k ∈ ns.map (fun n => n.id) := by
  intro ns
  induction ns with
  | nil => intro m k h; left; exact h
  | cons n t ih =>
      intro m k h
      rcases ih (mapSet m n.id n) k h with h1 | h2
      · rcases keys_mapSet_cases m n.id n k h1 with h3 | h4
        · left; exact h3
        · right; rw [h4]; exact List.mem_cons_self _ _
      · right; exact List.mem_cons_of_mem _ h2

theorem nodup_keys_jsFold : ∀ (ns : List FunctionNode)
    (m : List (String × FunctionNode)),
    (m.map Prod.fst).Nodup →
    (((ns.foldl (fun m n => mapSet m n.id n) m)).map Prod.fst).Nodup := by
  intro ns
  induction ns with
  | nil => intro m h; exact h
  | cons n t ih => intro m h; exact ih _ (nodup_keys_mapSet m n.id n h)

theorem mapSet_append_left {α : Type} (m acc : List (String × α))
    (k : String) (v : α) (hk : ∀ p ∈ m, p.1 ≠ k) :
    mapSet (m ++ acc) k v = m ++ mapSet acc k v := by
  have hmfalse : m.any (fun p => decide (p.1 = k)) = false := by
    rw [List.any_eq_false]
    intro p hp
    simp [hk p hp]
  have hmmap : m.map (fun p => if p.1 = k then (k, v) else p) = m := by
    conv_rhs => rw [← List.map_id m]
    apply List.map_congr_left
    intro p hp
    simp [hk p hp]
  unfold mapSet
  rw [List.any_append, hmfalse]
  cases hacc : acc.any (fun p => decide (p.1 = k)) with
  | true =>
      simp only [Bool.false_or, if_true, List.map_append, hmmap]
  | false =>
      simp only [Bool.false_or, Bool.false_eq_true, if_false,
        List.append_assoc]

theorem jsFold_append : ∀ (ns : List FunctionNode)
    (m acc : List (String × FunctionNode)),
    (∀ x ∈ ns, ∀ p ∈ m, p.1 ≠ x.id) →
    (ns.foldl (fun m n => mapSet m n.id n) (m ++ acc)) =
      m ++ ns.foldl (fun m n => mapSet m n.id n) acc := by
  intro ns
  induction ns with
  | nil => intro m acc _; rfl
  | cons n t ih =>
      intro m acc h
      simp only [List.foldl_cons]
      rw [mapSet_append_left m acc n.id n
        (fun p hp => h n (List.mem_cons_self n t) p hp)]
      exact ih m (mapSet acc n.id n)
        (fun x hx p hp => h x (List.mem_cons_of_mem n hx) p hp)

theorem values_jsFold_sub : ∀ (ns : List FunctionNode)
    (m : List (String × FunctionNode)) (p : String × FunctionNode),
    p ∈ ns.foldl (fun m n => mapSet m n.id n) m → p.2 ∈ ns ∨ p ∈ m := by
  intro ns
  induction ns with
  | nil => intro m p h; right; exact h
  | cons n t ih =>
      intro m p h
      rcases ih (mapSet m n.id n) p h with h1 | h2
      · left; exact List.mem_cons_of_mem n h1
      · rcases mem_mapSet m n.id n p h2 with h3 | h4
        · left; rw [h3]; exact List.mem_cons_self n t
        · right; exact h4

theorem jsMap_flatten : ∀ (files : List FileParse),
    files.Pairwise (fun f g => ∀ i ∈ fnIds f, i ∉ fnIds g) →
    jsMapOfNodes (files.flatMap (fun f => f.functions)) =
      (files.map (fun f => jsMapOfNodes f.functions)).flatten := by
  intro files
  induction files with
  | nil => intro _; rfl
  | cons f t ih =>
      intro hp
      rcases List.pairwise_cons.mp hp with ⟨hf, ht⟩
      simp only [List.flatMap_cons, List.map_cons, List.flatten_cons]
      unfold jsMapOfNodes
      rw [List.foldl_append]
      have hdisj : ∀ x ∈ t.flatMap (fun f => f.functions),
          ∀ p ∈ f.functions.foldl (fun m n => mapSet m n.id n) [], p.1 ≠
            x.id := by
        intro x hx p hpm
        rcases List.mem_flatMap.mp hx with ⟨g, hg, hxg⟩
        have hkey : p.1 ∈ ([] : List (String × FunctionNode)).map Prod.fst ∨
            p.1 ∈ f.functions.map (fun n => n.id) :=
          keys_jsFold_sub f.functions [] p.1
            (List.mem_map.mpr ⟨p, hpm, rfl⟩)
        rcases hkey with hkey | hkey
        · cases hkey
        · intro he
          have hxid : x.id ∈ fnIds g := List.mem_map.mpr ⟨x, hxg, rfl⟩
          have hfid : x.id ∈ fnIds f := by rw [← he]; exact hkey
          exact hf g hg x.id hfid hxid
      have happ := jsFold_append (t.flatMap (fun f => f.functions))
        (f.functions.foldl (fun m n => mapSet m n.id n) []) [] hdisj
      rw [List.append_nil] at happ
      rw [happ]
      unfold jsMapOfNodes at ih
      rw [ih ht]

theorem mapGet_eq_none_iff {α : Type} (m : List (String × α)) (k : String) :
    mapGet m k = none ↔ ∀ p ∈ m, p.1 ≠ k := by
  unfold mapGet
  constructor
  · intro h p hp hpk
    cases hf : m.find? (fun p => decide (p.1 = k)) with
    | some q => rw [hf] at h; simp at h
    | none =>
        have := List.find?_eq_none.mp hf p hp
        simp [hpk] at this
  · intro h
    have hf : m.find? (fun p => decide (p.1 = k)) = none := by
      rw [List.find?_eq_none]
      intro p hp
      simp [h p hp]
    rw [hf]
    rfl

theorem mapGet_eq_of_perm_nodup {α : Type} (l1 l2 : List (String × α))
    (hperm : l1.Perm l2) (hk : (l1.map Prod.fst).Nodup) (k : String) :
    mapGet l1 k = mapGet l2 k := by
  have hk2 : (l2.map Prod.fst).Nodup :=
    ((hperm.map Prod.fst).nodup_iff).mp hk
  cases h1 : mapGet l1 k with
  | some v =>
      have hmem : (k, v) ∈ l2 := hperm.mem_iff.mp (mapGet_mem l1 k v h1)
      rw [mapGet_of_mem_nodup l2 k v hmem hk2]
  | none =>
      have h2 : ∀ p ∈ l2, p.1 ≠ k := by
        intro p hp
        exact (mapGet_eq_none_iff l1 k).mp h1 p (hperm.mem_iff.mpr hp)
      rw [(mapGet_eq_none_iff l2 k).mpr h2]

theorem nameIndex_bucket_aux : ∀ (ns : List FunctionNode)
    (acc : List (String × List String)) (name : String),
    (mapGet (ns.foldl (fun index node =>
      mapSet index node.name
        (((mapGet index node.name).getD []) ++ [node.id])) acc) name).getD []
    = (mapGet acc name).getD [] ++
        ((ns.filter (fun n => n.name = name)).map (fun n => n.id)) := by
  intro ns
  induction ns with
  | nil => intro acc name; simp
  | cons n t ih =>
      intro acc name
      simp only [List.foldl_cons]
      rw [ih]
      by_cases hname : n.name = name
      · subst hname
        rw [mapGet_mapSet_self]
        simp [List.filter_cons]
      · rw [mapGet_mapSet_ne _ _ _ _ (fun he => hname he.symm)]
        have : (List.filter (fun n => decide (n.name = name)) (n :: t)) =
            List.filter (fun n => decide (n.name = name)) t := by
          simp [List.filter_cons, hname]
        rw [this]

theorem buildNameIndex_bucket (g : CallGraph) (name : String) :
    (mapGet (buildNameIndex g) name).getD [] =
      (g.getAllNodes.filter (fun n => n.name = name)).map (fun n => n.id) := by
  unfold buildNameIndex
  have h := nameIndex_bucket_aux g.getAllNodes [] name
  have hnil : (mapGet ([] : List (String × List String)) name).getD [] =
      [] := rfl
  rw [hnil, List.nil_append] at h
  exact h

theorem map_or_distrib {α β : Type} (f : α → β) (a b : Option α) :
    (a.or b).map f = (a.map f).or (b.map f) := by
  cases a <;> rfl

theorem exportIndex_get_aux : ∀ (ns : List FunctionNode)
    (acc : List (String × String)) (key : String),
    mapGet (ns.foldl (fun index node =>
      mapSet (mapSet index (exportKey node.relPath node.name) node.id)
        (exportKey node.relPath "default") node.id) acc) key =
    (((ns.filter (writesKey key)).getLast?).map (fun n => n.id)).or
      (mapGet acc key) := by
  intro ns
  induction ns with
  | nil => intro acc key; simp
  | cons n t ih =>
      intro acc key
      simp only [List.foldl_cons]
      rw [ih]
      have hacc : mapGet (mapSet
          (mapSet acc (exportKey n.relPath n.name) n.id)
          (exportKey n.relPath "default") n.id) key =
          if writesKey key n then some n.id else mapGet acc key := by
        by_cases hk2 : key = exportKey n.relPath "default"
        · rw [hk2, mapGet_mapSet_self]
          have hw : writesKey (exportKey n.relPath "default") n = true := by
            unfold writesKey
            simp
          rw [hw]
          simp
        · rw [mapGet_mapSet_ne _ _ _ _ hk2]
          by_cases hk1 : key = exportKey n.relPath n.name
          · rw [hk1, mapGet_mapSet_self]
            have hw : writesKey (exportKey n.relPath n.name) n = true := by
              unfold writesKey
              simp
            rw [hw]
            simp
          · rw [mapGet_mapSet_ne _ _ _ _ hk1]
            have hw : writesKey key n = false := by
              unfold writesKey
              simp only [Bool.or_eq_false_iff, decide_eq_false_iff_not]
              exact ⟨fun he => hk1 he.symm, fun he => hk2 he.symm⟩
            rw [hw]
            simp
      rw [hacc]
      by_cases hw : writesKey key n = true
      · have hfil : List.filter (writesKey key) (n :: t) =
            n :: List.filter (writesKey key) t := by
          simp [List.filter_cons, hw]
        rw [hfil, getLast?_cons_or, map_or_distrib, Option.or_assoc]
        have hred : ((some n).map (fun m : FunctionNode => m.id)).or
            (mapGet acc key) = some n.id := rfl
        rw [hred]
        simp [hw]
      · have hwf : writesKey key n = false := by
          cases hwb : writesKey key n
          · rfl
          · exact absurd hwb hw
        have hfil : List.filter (writesKey key) (n :: t) =
            List.filter (writesKey key) t := by
          simp [List.filter_cons, hwf]
        rw [hfil]
        simp [hwf]

theorem buildExportIndex_get (g : CallGraph) (key : String) :
    mapGet (buildExportIndex g) key =
      ((g.getAllNodes.filter (writesKey key)).getLast?).map
        (fun n => n.id) := by
  unfold buildExportIndex
  have h := exportIndex_get_aux g.getAllNodes [] key
  have hnil : mapGet ([] : List (String × String)) key = none := rfl
  rw [hnil, Option.or_none] at h
  exact h

theorem filter_flatten {α : Type} (p : α → Bool) (L : List (List α)) :
    L.flatten.filter p = (L.map (List.filter p)).flatten := by
  induction L with
  | nil => rfl
  | cons x t ih => simp [List.filter_append, ih]

theorem flatten_eq_of_perm_pairwiseNil {α : Type} :
    ∀ {l1 l2 : List (List α)}, l1.Perm l2 →
      l1.Pairwise (fun a b => a = [] ∨ b = []) →
      l1.flatten = l2.flatten := by
  intro l1 l2 h
  induction h with
  | nil => intro _; rfl
  | cons x h ih =>
      intro hp
      simp only [List.flatten_cons]
      rw [ih (List.pairwise_cons.mp hp).2]
  | swap x y l =>
      intro hp
      rcases List.pairwise_cons.mp hp with ⟨hy, _⟩
      have hxy := hy x (List.mem_cons_self x l)
      simp only [List.flatten_cons]
      rcases hxy with hynil | hxnil
      · rw [hynil]; simp
      · rw [hxnil]; simp
  | trans h1 h2 ih1 ih2 =>
      intro hp
      rw [ih1 hp]
      exact ih2 ((List.Perm.pairwise_iff (fun hab => hab.symm) h1).mp hp)

theorem strategy4_congr (c : RawCall)
    (n1 n2 : List (String × List String)) (g1 g2 : CallGraph)
    (hget : ∀ id, g1.getNode id = g2.getNode id)
    (hbuck : ((mapGet n1 c.calleeName).getD []).Perm
      ((mapGet n2 c.calleeName).getD [])) :
    strategy4 c n1 g1 = strategy4 c n2 g2 := by
  unfold strategy4
  simp only [hget]
  set b1 := (mapGet n1 c.calleeName).getD [] with hb1
  set b2 := (mapGet n2 c.calleeName).getD [] with hb2
  clear_value b1 b2
  rcases b1 with _ | ⟨t, _ | ⟨u, r⟩⟩
  · have h2 : b2 = [] := hbuck.symm.eq_nil
    subst h2
    rfl
  · have h2 : b2 = [t] := List.perm_singleton.mp hbuck.symm
    subst h2
    rfl
  · have hlen := hbuck.length_eq
    rcases b2 with _ | ⟨t2, _ | ⟨u2, r2⟩⟩
    · simp at hlen
    · simp at hlen
    · rfl

theorem strategy3_congr (c : RawCall)
    (n1 n2 : List (String × List String)) (g1 g2 : CallGraph)
    (hget : ∀ id, g1.getNode id = g2.getNode id)
    (hbuck : ∀ name, ((mapGet n1 name).getD []).Perm
      ((mapGet n2 name).getD [])) :
    strategy3 c n1 g1 = strategy3 c n2 g2 := by
  have h4 := strategy4_congr c n1 n2 g1 g2 hget (hbuck c.calleeName)
  unfold strategy3
  simp only [hget, h4]
  have hsp : (((mapGet n1 c.calleeName).getD []).filter
      (fun id => decide ((g2.getNode id).map (fun n => n.relPath) =
        (g2.getNode c.fromId).map (fun n => n.relPath)))).Perm
      (((mapGet n2 c.calleeName).getD []).filter
      (fun id => decide ((g2.getNode id).map (fun n => n.relPath) =
        (g2.getNode c.fromId).map (fun n => n.relPath)))) :=
    (hbuck c.calleeName).filter _
  set s1 := ((mapGet n1 c.calleeName).getD []).filter
      (fun id => decide ((g2.getNode id).map (fun n => n.relPath) =
        (g2.getNode c.fromId).map (fun n => n.relPath))) with hs1
  set s2 := ((mapGet n2 c.calleeName).getD []).filter
      (fun id => decide ((g2.getNode id).map (fun n => n.relPath) =
        (g2.getNode c.fromId).map (fun n => n.relPath))) with hs2
  clear_value s1 s2
  rcases s1 with _ | ⟨t, _ | ⟨u, r⟩⟩
  · have h2 : s2 = [] := hsp.symm.eq_nil
    subst h2
    rfl
  · have h2 : s2 = [t] := List.perm_singleton.mp hsp.symm
    subst h2
    rfl
  · have hlen := hsp.length_eq
    rcases s2 with _ | ⟨t2, _ | ⟨u2, r2⟩⟩
    · simp at hlen
    · simp at hlen
    · rfl

theorem strategy2_congr (c : RawCall)
    (im : List (String × ImportEntry))
    (n1 n2 : List (String × List String))
    (e1 e2 : List (String × String)) (g1 g2 : CallGraph)
    (rel : String → String)
    (hget : ∀ id, g1.getNode id = g2.getNode id)
    (hexp : ∀ key, mapGet e1 key = mapGet e2 key)
    (hbuck : ∀ name, ((mapGet n1 name).getD []).Perm
      ((mapGet n2 name).getD [])) :
    strategy2 c im n1 e1 g1 rel = strategy2 c im n2 e2 g2 rel := by
  have h3 := strategy3_congr c n1 n2 g1 g2 hget hbuck
  unfold strategy2
  simp only [hget, hexp, h3]

theorem resolveCall_congr (c : RawCall)
    (im : List (String × ImportEntry))
    (n1 n2 : List (String × List String))
    (e1 e2 : List (String × String)) (g1 g2 : CallGraph)
    (rel : String → String)
    (hget : ∀ id, g1.getNode id = g2.getNode id)
    (hexp : ∀ key, mapGet e1 key = mapGet e2 key)
    (hbuck : ∀ name, ((mapGet n1 name).getD []).Perm
      ((mapGet n2 name).getD [])) :
    resolveCall c im n1 e1 g1 rel = resolveCall c im n2 e2 g2 rel := by
  have h2 := strategy2_congr c im n1 n2 e1 e2 g1 g2 rel hget hexp hbuck
  unfold resolveCall
  simp only [hget, hexp, h2]

/-- C2: for a fixed set of per-file parse results, resolving any call site
against the indices built from any two permutations of the file order
gives the same edge — resolution is order-independent.  The two pairwise
hypotheses record that distinct files contribute disjoint function ids and
disjoint export keys, which holds in `buildGraph` because every file gets
a distinct relative path. -/
theorem resolution_order_invariant (files1 files2 : List FileParse)
    (rel : String → String) (hperm : files1.Perm files2)
    (hids : files1.Pairwise (fun f g => ∀ i ∈ fnIds f, i ∉ fnIds g))
    (hkeys : files1.Pairwise
      (fun f g => ∀ k ∈ exportKeysOf f, k ∉ exportKeysOf g))
    (c : RawCall) (im : List (String × ImportEntry)) :
    resolveCall c im (buildNameIndex (insertFunctions files1))
      (buildExportIndex (insertFunctions files1)) (insertFunctions files1)
      rel =
    resolveCall c im (buildNameIndex (insertFunctions files2))
      (buildExportIndex (insertFunctions files2)) (insertFunctions files2)
      rel := by
  have hidsym : ∀ {f g : FileParse},
      (∀ i ∈ fnIds f, i ∉ fnIds g) → ∀ i ∈ fnIds g, i ∉ fnIds f := by
    intro f g h i hig hif
    exact h i hif hig
  have hkeysym : ∀ {f g : FileParse},
      (∀ k ∈ exportKeysOf f, k ∉ exportKeysOf g) →
      ∀ k ∈ exportKeysOf g, k ∉ exportKeysOf f := by
    intro f g h k hkg hkf
    exact h k hkf hkg
  have hids2 : files2.Pairwise (fun f g => ∀ i ∈ fnIds f, i ∉ fnIds g) :=
    (List.Perm.pairwise_iff hidsym hperm).mp hids
  have hnodes1 : (insertFunctions files1).nodes =
      (files1.map (fun f => jsMapOfNodes f.functions)).flatten := by
    rw [insertFunctions_nodes, jsMap_flatten files1 hids]
  have hnodes2 : (insertFunctions files2).nodes =
      (files2.map (fun f => jsMapOfNodes f.functions)).flatten := by
    rw [insertFunctions_nodes, jsMap_flatten files2 hids2]
  have hnperm : (insertFunctions files1).nodes.Perm
      (insertFunctions files2).nodes := by
    rw [hnodes1, hnodes2]
    exact (hperm.map (fun f => jsMapOfNodes f.functions)).flatten
  have hknd1 : (((insertFunctions files1).nodes).map Prod.fst).Nodup := by
    rw [insertFunctions_nodes]
    exact nodup_keys_jsFold _ [] (by simp)
  have hget : ∀ id, (insertFunctions files1).getNode id =
      (insertFunctions files2).getNode id := by
    intro id
    exact mapGet_eq_of_perm_nodup _ _ hnperm hknd1 id
  have hall : (insertFunctions files1).getAllNodes.Perm
      (insertFunctions files2).getAllNodes := by
    show ((insertFunctions files1).nodes.map (fun p => p.2)).Perm
      ((insertFunctions files2).nodes.map (fun p => p.2))
    exact hnperm.map (fun p => p.2)
  have hbuck : ∀ name,
      ((mapGet (buildNameIndex (insertFunctions files1)) name).getD
        []).Perm
      ((mapGet (buildNameIndex (insertFunctions files2)) name).getD []) := by
    intro name
    rw [buildNameIndex_bucket, buildNameIndex_bucket]
    exact (hall.filter _).map _
  have hexp : ∀ key,
      mapGet (buildExportIndex (insertFunctions files1)) key =
      mapGet (buildExportIndex (insertFunctions files2)) key := by
    intro key
    rw [buildExportIndex_get, buildExportIndex_get]
    have hfeq : (insertFunctions files1).getAllNodes.filter
        (writesKey key) =
        (insertFunctions files2).getAllNodes.filter (writesKey key) := by
      have hdecomp : ∀ (files : List FileParse),
          files.Pairwise (fun f g => ∀ i ∈ fnIds f, i ∉ fnIds g) →
          (insertFunctions files).getAllNodes.filter (writesKey key) =
          (files.map (fun f =>
            ((jsMapOfNodes f.functions).map (fun p => p.2)).filter
              (writesKey key))).flatten := by
        intro files hidsf
        show ((insertFunctions files).nodes.map (fun p => p.2)).filter
          (writesKey key) = _
        rw [insertFunctions_nodes, jsMap_flatten files hidsf,
          List.map_flatten, filter_flatten, List.map_map, List.map_map]
        rfl
      rw [hdecomp files1 hids, hdecomp files2 hids2]
      apply flatten_eq_of_perm_pairwiseNil
        (hperm.map (fun f =>
          ((jsMapOfNodes f.functions).map (fun p => p.2)).filter
            (writesKey key)))
      rw [List.pairwise_map]
      have hkmono : ∀ (f : FileParse) (n : FunctionNode),
          n ∈ ((jsMapOfNodes f.functions).map (fun p => p.2)).filter
            (writesKey key) → key ∈ exportKeysOf f := by
        intro f n hn
        have hmem := List.mem_filter.mp hn
        have hw := hmem.2
        rcases List.mem_map.mp hmem.1 with ⟨p, hp, hpn⟩
        have hfn : p.2 ∈ f.functions := by
          rcases values_jsFold_sub f.functions [] p hp with h1 | h2
          · exact h1
          · cases h2
        have hnf : n ∈ f.functions := by rw [← hpn]; exact hfn
        unfold writesKey at hw
        unfold exportKeysOf
        rcases Bool.or_eq_true_iff.mp hw with h1 | h2
        · exact List.mem_flatMap.mpr ⟨n, hnf, by
            unfold exportKeysOfNode
            rw [of_decide_eq_true h1]
            exact List.mem_cons_self _ _⟩
        · exact List.mem_flatMap.mpr ⟨n, hnf, by
            unfold exportKeysOfNode
            rw [of_decide_eq_true h2]
            exact List.mem_cons_of_mem _ (List.mem_cons_self _ _)⟩
      apply hkeys.imp
      intro f g hfg
      by_cases hf : ((jsMapOfNodes f.functions).map (fun p => p.2)).filter
          (writesKey key) = []
      · left; exact hf
      · right
        rcases List.exists_mem_of_ne_nil _ hf with ⟨n, hn⟩
        have hkf := hkmono f n hn
        by_contra hg
        rcases List.exists_mem_of_ne_nil _ hg with ⟨n2, hn2⟩
        exact hfg key hkf (hkmono g n2 hn2)
    rw [hfeq]
  exact resolveCall_congr c im _ _ _ _ _ _ rel hget hexp hbuck

/-- C2 witness: the two-file example in both orders resolves the call to
`helper` identically. -/
theorem resolution_order_invariant_witness :
    [c2FileA, c2FileB].Perm [c2FileB, c2FileA] ∧
    resolveCall c2Call []
      (buildNameIndex (insertFunctions [c2FileA, c2FileB]))
      (buildExportIndex (insertFunctions [c2FileA, c2FileB]))
      (insertFunctions [c2FileA, c2FileB]) relProj =
    resolveCall c2Call []
      (buildNameIndex (insertFunctions [c2FileB, c2FileA]))
      (buildExportIndex (insertFunctions [c2FileB, c2FileA]))
      (insertFunctions [c2FileB, c2FileA]) relProj := by
  refine ⟨List.Perm.swap c2FileB c2FileA [], ?_⟩
  exact resolution_order_invariant [c2FileA, c2FileB] [c2FileB, c2FileA]
    relProj (List.Perm.swap c2FileB c2FileA [])
    (by decide) (by decide) c2Call []

end Sociograph
